import Mathlib

/-!
Shallow embedding of the escrow program (programs/escrow/src) and proofs of the
spec claims about it.

Modelling conventions:
- Pubkeys are Nat; 32-byte hashes and the 64-byte dispute reason blob are Nat
  (opaque payloads: stored, never interpreted).
- Machine integers are Nat with explicit bounds: u64 values carry a < 2^64
  side condition where it matters; checked_add / checked_mul / checked_sub /
  the `as u64` cast are modelled explicitly (mod / bound tests).
- Each instruction handler becomes a pure function from the escrow account and
  the instruction inputs (caller pubkey, clock time, arguments) to
  Except EscrowError (StepResult ...).  Anchor account constraints are encoded
  as the first checks, in their declaration order (constraints on the
  escrow_account are evaluated before the handler body runs); require! calls
  follow in source order.  An error return models the transaction aborting
  with no effect (the substrate gives per-invocation atomicity).
- Value movement is reported in the StepResult payout fields; the account
  closure attribute (close = creator) is reported as closes = some creator.
- Reputation-account mutation is omitted from the state: the source updates
  reputation with saturating arithmetic only, never fails because of it, and
  no claim concerns the counters.
-/

/-- Escrow lifecycle status, from state.rs (enum EscrowStatus). -/
inductive EscrowStatus where
  | Created
  | Active
  | Completed
  | Disputed
  | Refunded
  | Cancelled
  | Resolved
deriving DecidableEq, Repr

/-- Milestone status, from state.rs (enum MilestoneStatus). -/
inductive MilestoneStatus where
  | Pending
  | Released
  | Disputed
deriving DecidableEq, Repr

/-- Dispute winner argument, from resolve_dispute.rs (enum DisputeWinner). -/
inductive DisputeWinner where
  | Creator
  | Recipient
deriving DecidableEq, Repr

/-- Error taxonomy, from errors.rs (enum EscrowError), all 18 variants. -/
inductive EscrowError where
  | InvalidStatus
  | UnauthorizedCreator
  | UnauthorizedRecipient
  | UnauthorizedArbiter
  | DeadlineNotReached
  | DeadlineExpired
  | FeeTooHigh
  | ZeroAmount
  | Overflow
  | UnauthorizedDisputer
  | InvalidAutoRelease
  | AutoReleaseNotEnabled
  | AutoReleaseNotReady
  | TooManyMilestones
  | MilestoneAmountMismatch
  | InvalidMilestoneIndex
  | MilestoneAlreadyReleased
  | MilestoneNotPending
deriving DecidableEq, Repr

/-- Modulus of the u64 machine type. -/
def U64_MOD : Nat := 2 ^ 64

/-- Modulus of the u128 machine type (intermediate width of the fee product). -/
def U128_MOD : Nat := 2 ^ 128

/-- Maximum number of milestones, from state.rs (MAX_MILESTONES). -/
def MAX_MILESTONES : Nat := 10

/-- Result of one successful instruction: the updated account, the value paid
to each party during the instruction (smallest units), and, when the record is
closed by the instruction (the close = ... account attribute), the destination
of the residual storage cost. -/
structure StepResult (α : Type) where
  account : α
  toCreator : Nat := 0
  toRecipient : Nat := 0
  toFeeRecipient : Nat := 0
  closes : Option Nat := none
deriving DecidableEq, Repr

/-- Total value paid out by one successful instruction. -/
def payoutTotal {α : Type} (r : StepResult α) : Nat :=
  r.toCreator + r.toRecipient + r.toFeeRecipient

/-- Fee computation shared by every payout path (release_payment.rs lines
56-63; identical text in auto_release.rs, resolve_dispute.rs,
release_milestone.rs, resolve_milestone_dispute.rs, release_token_payment.rs,
auto_release_token.rs):
fee = ((amount as u128).checked_mul(bps).ok_or(Overflow)?
        .checked_div(10000).ok_or(Overflow)?) as u64;
net = amount.checked_sub(fee).ok_or(Overflow)?.
checked_mul overflows iff the product reaches 2^128; checked_div by the
nonzero constant 10000 never fails; the cast to u64 truncates mod 2^64;
checked_sub fails iff fee exceeds amount. -/
def computeFee (amount bps : Nat) : Except EscrowError (Nat × Nat) :=
  if amount * bps < U128_MOD then
    if amount * bps / 10000 % U64_MOD ≤ amount then
      .ok (amount * bps / 10000 % U64_MOD, amount - amount * bps / 10000 % U64_MOD)
    else .error .Overflow
  else .error .Overflow

/-- Native-asset escrow record, from state.rs (EscrowAccount).  The bump seed
is PDA mechanics of the storage substrate and is not modelled. -/
structure EscrowAccount where
  creator : Nat
  recipient : Nat
  amount : Nat
  status : EscrowStatus
  deadline : Int
  termsHash : Nat
  arbiter : Nat
  feeBasisPoints : Nat
  feeRecipient : Nat
  createdAt : Int
  escrowId : Nat
  disputeReason : Nat
  autoReleaseAt : Int
deriving DecidableEq, Repr

/-- create_escrow.rs handler: validates the inputs, transfers amount from the
creator into the record, and initializes the record.  Returns the record and
the amount transferred in. -/
def createEscrow (escrowId amount : Nat) (deadline : Int) (termsHash feeBasisPoints : Nat)
    (autoReleaseAt : Int) (creator recipient arbiter feeRecipient : Nat) (now : Int) :
    Except EscrowError (EscrowAccount × Nat) :=
  if amount > 0 then
    if feeBasisPoints ≤ 1000 then
      if deadline > now then
        if autoReleaseAt ≠ 0 ∧ ¬ (autoReleaseAt > deadline) then .error .InvalidAutoRelease
        else
          .ok ({ creator := creator, recipient := recipient, amount := amount,
                 status := .Created, deadline := deadline, termsHash := termsHash,
                 arbiter := arbiter, feeBasisPoints := feeBasisPoints,
                 feeRecipient := feeRecipient, createdAt := now, escrowId := escrowId,
                 disputeReason := 0, autoReleaseAt := autoReleaseAt }, amount)
      else .error .DeadlineExpired
    else .error .FeeTooHigh
  else .error .ZeroAmount

/-- accept_task.rs: recipient-only (constraint order: recipient, then status),
requires status Created and now strictly before the deadline; Created to
Active. -/
def acceptTask (e : EscrowAccount) (caller : Nat) (now : Int) :
    Except EscrowError (StepResult EscrowAccount) :=
  if caller = e.recipient then
    if e.status = .Created then
      if now < e.deadline then
        .ok { account := { e with status := .Active } }
      else .error .DeadlineExpired
    else .error .InvalidStatus
  else .error .UnauthorizedRecipient

/-- release_payment.rs: creator-only (constraint order: creator, then status),
requires status Active; pays fee to fee_recipient and the remainder to the
recipient, sets Completed, and closes the record to the creator. -/
def releasePayment (e : EscrowAccount) (caller : Nat) :
    Except EscrowError (StepResult EscrowAccount) :=
  if caller = e.creator then
    if e.status = .Active then
      match computeFee e.amount e.feeBasisPoints with
      | .error err => .error err
      | .ok (fee, net) =>
          .ok { account := { e with status := .Completed },
                toRecipient := net, toFeeRecipient := fee, closes := some e.creator }
    else .error .InvalidStatus
  else .error .UnauthorizedCreator

/-- request_refund.rs: creator-only; from Created refunds unconditionally and
cancels, from Active refunds only once now has reached the deadline, any other
status fails InvalidStatus; refunds the full amount and closes the record to
the creator. -/
def requestRefund (e : EscrowAccount) (caller : Nat) (now : Int) :
    Except EscrowError (StepResult EscrowAccount) :=
  if caller = e.creator then
    match e.status with
    | .Created =>
        .ok { account := { e with status := .Cancelled },
              toCreator := e.amount, closes := some e.creator }
    | .Active =>
        if now ≥ e.deadline then
          .ok { account := { e with status := .Refunded },
                toCreator := e.amount, closes := some e.creator }
        else .error .DeadlineNotReached
    | _ => .error .InvalidStatus
  else .error .UnauthorizedCreator

/-- dispute.rs: requires status Active (account constraint, checked first);
only the creator or the recipient may dispute; stores the reason and sets
Disputed. -/
def dispute (e : EscrowAccount) (caller : Nat) (reason : Nat) :
    Except EscrowError (StepResult EscrowAccount) :=
  if e.status = .Active then
    if caller = e.creator ∨ caller = e.recipient then
      .ok { account := { e with status := .Disputed, disputeReason := reason } }
    else .error .UnauthorizedDisputer
  else .error .InvalidStatus

/-- resolve_dispute.rs: requires status Disputed then arbiter identity
(constraint order); Recipient wins: fee to fee_recipient, remainder to
recipient; Creator wins: full amount to the creator, no fee.  Sets Resolved
and closes the record to the creator. -/
def resolveDispute (e : EscrowAccount) (caller : Nat) (winner : DisputeWinner) :
    Except EscrowError (StepResult EscrowAccount) :=
  if e.status = .Disputed then
    if caller = e.arbiter then
      match winner with
      | .Recipient =>
          match computeFee e.amount e.feeBasisPoints with
          | .error err => .error err
          | .ok (fee, net) =>
              .ok { account := { e with status := .Resolved },
                    toRecipient := net, toFeeRecipient := fee, closes := some e.creator }
      | .Creator =>
          .ok { account := { e with status := .Resolved },
                toCreator := e.amount, closes := some e.creator }
    else .error .UnauthorizedArbiter
  else .error .InvalidStatus

/-- auto_release.rs: requires status Active (the only account constraint on
the record; the caller signs but is never compared to any stored identity);
requires auto_release_at nonzero (else AutoReleaseNotEnabled) and now at or
past it (else AutoReleaseNotReady); then the exact release_payment payout,
Completed, record closed to the creator.  The caller argument is accepted and
ignored, mirroring the unchecked caller account. -/
def autoRelease (e : EscrowAccount) (_caller : Nat) (now : Int) :
    Except EscrowError (StepResult EscrowAccount) :=
  if e.status = .Active then
    if e.autoReleaseAt ≠ 0 then
      if now ≥ e.autoReleaseAt then
        match computeFee e.amount e.feeBasisPoints with
        | .error err => .error err
        | .ok (fee, net) =>
            .ok { account := { e with status := .Completed },
                  toRecipient := net, toFeeRecipient := fee, closes := some e.creator }
      else .error .AutoReleaseNotReady
    else .error .AutoReleaseNotEnabled
  else .error .InvalidStatus

/-- One native-escrow instruction invocation (caller pubkey and clock reading
included where the handler uses them). -/
inductive NOp where
  | accept (caller : Nat) (now : Int)
  | release (caller : Nat)
  | requestRefund (caller : Nat) (now : Int)
  | dispute (caller : Nat) (reason : Nat)
  | resolveDispute (caller : Nat) (winner : DisputeWinner)
  | autoRelease (caller : Nat) (now : Int)
deriving DecidableEq, Repr

/-- Dispatch of the native-escrow instructions (lib.rs program module). -/
def nStep (e : EscrowAccount) : NOp → Except EscrowError (StepResult EscrowAccount)
  | .accept c now => acceptTask e c now
  | .release c => releasePayment e c
  | .requestRefund c now => requestRefund e c now
  | .dispute c reason => dispute e c reason
  | .resolveDispute c w => resolveDispute e c w
  | .autoRelease c now => autoRelease e c now

/-- Token-denominated escrow record, from state.rs (TokenEscrowAccount):
the native record plus the mint identity; value sits in a separate holding
account (the vault) owned by the record. -/
structure TokenEscrowAccount where
  creator : Nat
  recipient : Nat
  mint : Nat
  amount : Nat
  status : EscrowStatus
  deadline : Int
  termsHash : Nat
  arbiter : Nat
  feeBasisPoints : Nat
  feeRecipient : Nat
  createdAt : Int
  escrowId : Nat
  disputeReason : Nat
  autoReleaseAt : Int
deriving DecidableEq, Repr

/-- create_token_escrow.rs handler: same validation chain as create_escrow,
transfers amount of the token from the creator's token account into the
vault; returns the record and the amount transferred. -/
def createTokenEscrow (escrowId amount : Nat) (deadline : Int)
    (termsHash feeBasisPoints : Nat) (autoReleaseAt : Int)
    (creator recipient arbiter feeRecipient mint : Nat) (now : Int) :
    Except EscrowError (TokenEscrowAccount × Nat) :=
  if amount > 0 then
    if feeBasisPoints ≤ 1000 then
      if deadline > now then
        if autoReleaseAt ≠ 0 ∧ ¬ (autoReleaseAt > deadline) then .error .InvalidAutoRelease
        else
          .ok ({ creator := creator, recipient := recipient, mint := mint,
                 amount := amount, status := .Created, deadline := deadline,
                 termsHash := termsHash, arbiter := arbiter,
                 feeBasisPoints := feeBasisPoints, feeRecipient := feeRecipient,
                 createdAt := now, escrowId := escrowId, disputeReason := 0,
                 autoReleaseAt := autoReleaseAt }, amount)
      else .error .DeadlineExpired
    else .error .FeeTooHigh
  else .error .ZeroAmount

/-- Modelled from the spec: accept_token_task is dispatched from lib.rs but
its handler source file is not under src; per sections 4.3 and 6 the token
variant shares the native state machine, so it mirrors accept_task:
recipient-only, status Created, now before deadline, Created to Active. -/
def acceptTokenTask (e : TokenEscrowAccount) (caller : Nat) (now : Int) :
    Except EscrowError (StepResult TokenEscrowAccount) :=
  if caller = e.recipient then
    if e.status = .Created then
      if now < e.deadline then
        .ok { account := { e with status := .Active } }
      else .error .DeadlineExpired
    else .error .InvalidStatus
  else .error .UnauthorizedRecipient

/-- release_token_payment.rs: creator-only then status Active; fee to the fee
token account, remainder to the recipient token account, vault closed to the
creator, record closed to the creator, status Completed. -/
def releaseTokenPayment (e : TokenEscrowAccount) (caller : Nat) :
    Except EscrowError (StepResult TokenEscrowAccount) :=
  if caller = e.creator then
    if e.status = .Active then
      match computeFee e.amount e.feeBasisPoints with
      | .error err => .error err
      | .ok (fee, net) =>
          .ok { account := { e with status := .Completed },
                toRecipient := net, toFeeRecipient := fee, closes := some e.creator }
    else .error .InvalidStatus
  else .error .UnauthorizedCreator

/-- refund_token_escrow.rs: creator-only; Created refunds unconditionally
(Cancelled), Active refunds once now has reached the deadline (Refunded), any
other status fails InvalidStatus; the full amount returns to the creator's
token account, vault and record close to the creator. -/
def refundTokenEscrow (e : TokenEscrowAccount) (caller : Nat) (now : Int) :
    Except EscrowError (StepResult TokenEscrowAccount) :=
  if caller = e.creator then
    match e.status with
    | .Created =>
        .ok { account := { e with status := .Cancelled },
              toCreator := e.amount, closes := some e.creator }
    | .Active =>
        if now ≥ e.deadline then
          .ok { account := { e with status := .Refunded },
                toCreator := e.amount, closes := some e.creator }
        else .error .DeadlineNotReached
    | _ => .error .InvalidStatus
  else .error .UnauthorizedCreator

/-- dispute_token.rs: status Active first (account constraint), then creator
or recipient; stores the reason and sets Disputed. -/
def disputeToken (e : TokenEscrowAccount) (caller : Nat) (reason : Nat) :
    Except EscrowError (StepResult TokenEscrowAccount) :=
  if e.status = .Active then
    if caller = e.creator ∨ caller = e.recipient then
      .ok { account := { e with status := .Disputed, disputeReason := reason } }
    else .error .UnauthorizedDisputer
  else .error .InvalidStatus

/-- Modelled from the spec: resolve_token_dispute is dispatched from lib.rs
but its handler source file is not under src; per sections 4.3 and 9 it
mirrors resolve_dispute (authorization, status machine and fee math
identical): arbiter-only on a Disputed record, Recipient wins fee plus
remainder, Creator wins the full amount with no fee, status Resolved, vault
and record closed to the creator. -/
def resolveTokenDispute (e : TokenEscrowAccount) (caller : Nat) (winner : DisputeWinner) :
    Except EscrowError (StepResult TokenEscrowAccount) :=
  if e.status = .Disputed then
    if caller = e.arbiter then
      match winner with
      | .Recipient =>
          match computeFee e.amount e.feeBasisPoints with
          | .error err => .error err
          | .ok (fee, net) =>
              .ok { account := { e with status := .Resolved },
                    toRecipient := net, toFeeRecipient := fee, closes := some e.creator }
      | .Creator =>
          .ok { account := { e with status := .Resolved },
                toCreator := e.amount, closes := some e.creator }
    else .error .UnauthorizedArbiter
  else .error .InvalidStatus

/-- auto_release_token.rs: status Active is the only constraint on the record
(caller unchecked); auto_release_at nonzero, now at or past it; release
payout, Completed, vault and record closed to the creator. -/
def autoReleaseToken (e : TokenEscrowAccount) (_caller : Nat) (now : Int) :
    Except EscrowError (StepResult TokenEscrowAccount) :=
  if e.status = .Active then
    if e.autoReleaseAt ≠ 0 then
      if now ≥ e.autoReleaseAt then
        match computeFee e.amount e.feeBasisPoints with
        | .error err => .error err
        | .ok (fee, net) =>
            .ok { account := { e with status := .Completed },
                  toRecipient := net, toFeeRecipient := fee, closes := some e.creator }
      else .error .AutoReleaseNotReady
    else .error .AutoReleaseNotEnabled
  else .error .InvalidStatus

/-- One token-escrow instruction invocation. -/
inductive TOp where
  | accept (caller : Nat) (now : Int)
  | release (caller : Nat)
  | refund (caller : Nat) (now : Int)
  | dispute (caller : Nat) (reason : Nat)
  | resolveDispute (caller : Nat) (winner : DisputeWinner)
  | autoRelease (caller : Nat) (now : Int)
deriving DecidableEq, Repr

/-- Dispatch of the token-escrow instructions (lib.rs program module). -/
def tStep (e : TokenEscrowAccount) : TOp → Except EscrowError (StepResult TokenEscrowAccount)
  | .accept c now => acceptTokenTask e c now
  | .release c => releaseTokenPayment e c
  | .refund c now => refundTokenEscrow e c now
  | .dispute c reason => disputeToken e c reason
  | .resolveDispute c w => resolveTokenDispute e c w
  | .autoRelease c now => autoReleaseToken e c now

/-- One milestone, from state.rs (struct Milestone). -/
structure Milestone where
  amount : Nat
  status : MilestoneStatus
  descriptionHash : Nat
deriving DecidableEq, Repr

/-- Milestone creation input, from create_milestone_escrow.rs
(struct MilestoneInput). -/
structure MilestoneInput where
  amount : Nat
  descriptionHash : Nat
deriving DecidableEq, Repr

/-- Milestone escrow record, from state.rs (MilestoneEscrowAccount).  The
source stores a fixed array of MAX_MILESTONES slots together with
milestone_count and only ever reads or writes the first milestone_count
slots (unused slots stay default and are never observed); the embedding keeps
exactly that live portion as a list, whose length is milestone_count. -/
structure MilestoneEscrowAccount where
  creator : Nat
  recipient : Nat
  totalAmount : Nat
  releasedAmount : Nat
  status : EscrowStatus
  deadline : Int
  termsHash : Nat
  arbiter : Nat
  feeBasisPoints : Nat
  feeRecipient : Nat
  createdAt : Int
  escrowId : Nat
  milestones : List Milestone
deriving DecidableEq, Repr

/-- Overflow-checked u64 summation of the milestone amounts
(create_milestone_escrow.rs lines 53-56: iter().map(amount).try_fold(0u64,
checked_add)); fails at the first partial sum that reaches 2^64. -/
def trySumU64 : List Nat → Nat → Option Nat
  | [], acc => some acc
  | a :: rest, acc =>
      if acc + a < U64_MOD then trySumU64 rest (acc + a) else none

/-- create_milestone_escrow.rs handler: count within 1..=10 (else
TooManyMilestones), fee at most 1000 bps (else FeeTooHigh), deadline in the
future (else DeadlineExpired), overflow-checked total (else Overflow),
nonzero total (else ZeroAmount); transfers the total from the creator, every
milestone starts Pending, status Created.  Returns the record and the amount
transferred in. -/
def createMilestoneEscrow (escrowId : Nat) (deadline : Int)
    (termsHash feeBasisPoints : Nat) (milestones : List MilestoneInput)
    (creator recipient arbiter feeRecipient : Nat) (now : Int) :
    Except EscrowError (MilestoneEscrowAccount × Nat) :=
  if milestones.length > 0 ∧ milestones.length ≤ MAX_MILESTONES then
    if feeBasisPoints ≤ 1000 then
      if deadline > now then
        match trySumU64 (milestones.map (·.amount)) 0 with
        | none => .error .Overflow
        | some totalAmount =>
            if totalAmount > 0 then
              .ok ({ creator := creator, recipient := recipient,
                     totalAmount := totalAmount, releasedAmount := 0,
                     status := .Created, deadline := deadline,
                     termsHash := termsHash, arbiter := arbiter,
                     feeBasisPoints := feeBasisPoints,
                     feeRecipient := feeRecipient, createdAt := now,
                     escrowId := escrowId,
                     milestones := milestones.map
                       (fun m => { amount := m.amount, status := .Pending,
                                   descriptionHash := m.descriptionHash }) },
                   totalAmount)
            else .error .ZeroAmount
      else .error .DeadlineExpired
    else .error .FeeTooHigh
  else .error .TooManyMilestones

/-- accept_milestone_task.rs: recipient-only then status Created (constraint
order), now strictly before the deadline; Created to Active. -/
def acceptMilestoneTask (e : MilestoneEscrowAccount) (caller : Nat) (now : Int) :
    Except EscrowError (StepResult MilestoneEscrowAccount) :=
  if caller = e.recipient then
    if e.status = .Created then
      if now < e.deadline then
        .ok { account := { e with status := .Active } }
      else .error .DeadlineExpired
    else .error .InvalidStatus
  else .error .UnauthorizedRecipient

/-- Status test used by release_milestone.rs and resolve_milestone_dispute.rs
after updating a milestone: all milestones in the live portion are
Released. -/
def allReleased : List Milestone → Bool
  | [] => true
  | m :: ms => (m.status = MilestoneStatus.Released) && allReleased ms

/-- release_milestone.rs: creator-only then status Active (constraint order);
index within milestone_count (else InvalidMilestoneIndex), milestone Pending
(else MilestoneAlreadyReleased); fee and remainder paid on that milestone's
amount; milestone set Released, released_amount increased with checked_add
(else Overflow); if every milestone is now Released the record status becomes
Completed; the record is not closed by this path. -/
def releaseMilestone (e : MilestoneEscrowAccount) (caller : Nat) (idx : Nat) :
    Except EscrowError (StepResult MilestoneEscrowAccount) :=
  if caller = e.creator then
    if e.status = .Active then
      match e.milestones[idx]? with
      | none => .error .InvalidMilestoneIndex
      | some m =>
          if m.status = .Pending then
            match computeFee m.amount e.feeBasisPoints with
            | .error err => .error err
            | .ok (fee, net) =>
                if e.releasedAmount + m.amount < U64_MOD then
                  let ms := e.milestones.set idx { m with status := .Released }
                  .ok { account :=
                          { e with milestones := ms,
                                   releasedAmount := e.releasedAmount + m.amount,
                                   status := if allReleased ms then .Completed
                                             else e.status },
                        toRecipient := net, toFeeRecipient := fee }
                else .error .Overflow
          else .error .MilestoneAlreadyReleased
    else .error .InvalidStatus
  else .error .UnauthorizedCreator

/-- dispute_milestone.rs: status Active first (account constraint), then
creator or recipient, index within milestone_count, milestone Pending (else
MilestoneNotPending); the milestone and the whole record become Disputed. -/
def disputeMilestone (e : MilestoneEscrowAccount) (caller : Nat) (idx : Nat) :
    Except EscrowError (StepResult MilestoneEscrowAccount) :=
  if e.status = .Active then
    if caller = e.creator ∨ caller = e.recipient then
      match e.milestones[idx]? with
      | none => .error .InvalidMilestoneIndex
      | some m =>
          if m.status = .Pending then
            .ok { account :=
                    { e with milestones := e.milestones.set idx
                               { m with status := .Disputed },
                             status := .Disputed } }
          else .error .MilestoneNotPending
    else .error .UnauthorizedDisputer
  else .error .InvalidStatus

/-- resolve_milestone_dispute.rs: status Disputed then arbiter identity
(constraint order); index within milestone_count, milestone Disputed (else
MilestoneNotPending); Recipient wins fee plus remainder on that milestone's
amount, Creator wins the full milestone amount with no fee; milestone set
Released, released_amount increased with checked_add (else Overflow); the
record returns to Active, or to Completed when every milestone is now
Released; the record is not closed by this path.  The source performs the
per-winner transfers in a match and then runs one shared update tail; here
that tail is written inside each winner arm (same function, split-friendly
shape). -/
def resolveMilestoneDispute (e : MilestoneEscrowAccount) (caller : Nat)
    (idx : Nat) (winner : DisputeWinner) :
    Except EscrowError (StepResult MilestoneEscrowAccount) :=
  if e.status = .Disputed then
    if caller = e.arbiter then
      match e.milestones[idx]? with
      | none => .error .InvalidMilestoneIndex
      | some m =>
          if m.status = .Disputed then
            match winner with
            | .Recipient =>
                match computeFee m.amount e.feeBasisPoints with
                | .error err => .error err
                | .ok (fee, net) =>
                    if e.releasedAmount + m.amount < U64_MOD then
                      let ms := e.milestones.set idx { m with status := .Released }
                      .ok { account :=
                              { e with milestones := ms,
                                       releasedAmount := e.releasedAmount + m.amount,
                                       status := if allReleased ms then .Completed
                                                 else .Active },
                            toRecipient := net, toFeeRecipient := fee }
                    else .error .Overflow
            | .Creator =>
                if e.releasedAmount + m.amount < U64_MOD then
                  let ms := e.milestones.set idx { m with status := .Released }
                  .ok { account :=
                          { e with milestones := ms,
                                   releasedAmount := e.releasedAmount + m.amount,
                                   status := if allReleased ms then .Completed
                                             else .Active },
                        toCreator := m.amount }
                else .error .Overflow
          else .error .MilestoneNotPending
    else .error .UnauthorizedArbiter
  else .error .InvalidStatus

/-- refund_milestone_escrow.rs: creator-only; Created refunds unconditionally
(Cancelled), Active refunds once now has reached the deadline (Refunded), any
other status fails InvalidStatus; pays the creator the unreleased remainder
total_amount - released_amount computed with checked_sub (else Overflow) and
closes the record to the creator. -/
def refundMilestoneEscrow (e : MilestoneEscrowAccount) (caller : Nat) (now : Int) :
    Except EscrowError (StepResult MilestoneEscrowAccount) :=
  if caller = e.creator then
    match e.status with
    | .Created =>
        if e.releasedAmount ≤ e.totalAmount then
          .ok { account := { e with status := .Cancelled },
                toCreator := e.totalAmount - e.releasedAmount,
                closes := some e.creator }
        else .error .Overflow
    | .Active =>
        if now ≥ e.deadline then
          if e.releasedAmount ≤ e.totalAmount then
            .ok { account := { e with status := .Refunded },
                  toCreator := e.totalAmount - e.releasedAmount,
                  closes := some e.creator }
          else .error .Overflow
        else .error .DeadlineNotReached
    | _ => .error .InvalidStatus
  else .error .UnauthorizedCreator

/-- One milestone-escrow instruction invocation. -/
inductive MOp where
  | accept (caller : Nat) (now : Int)
  | releaseMilestone (caller : Nat) (idx : Nat)
  | disputeMilestone (caller : Nat) (idx : Nat)
  | resolveMilestoneDispute (caller : Nat) (idx : Nat) (winner : DisputeWinner)
  | refund (caller : Nat) (now : Int)
deriving DecidableEq, Repr

/-- Dispatch of the milestone-escrow instructions (lib.rs program module). -/
def mStep (e : MilestoneEscrowAccount) :
    MOp → Except EscrowError (StepResult MilestoneEscrowAccount)
  | .accept c now => acceptMilestoneTask e c now
  | .releaseMilestone c idx => releaseMilestone e c idx
  | .disputeMilestone c idx => disputeMilestone e c idx
  | .resolveMilestoneDispute c idx w => resolveMilestoneDispute e c idx w
  | .refund c now => refundMilestoneEscrow e c now

/-- Run a sequence of milestone-escrow invocations against one record,
accumulating the total value paid out.  A failed invocation aborts atomically
(no payout, no state change); a closing invocation destroys the record, after
which further invocations find no record and move no value. -/
def mRun : Option MilestoneEscrowAccount → List MOp → Nat →
    Option MilestoneEscrowAccount × Nat
  | st, [], paid => (st, paid)
  | none, _ :: ops, paid => mRun none ops paid
  | some e, op :: ops, paid =>
      match mStep e op with
      | .ok r =>
          mRun (if r.closes.isSome then none else some r.account) ops
            (paid + payoutTotal r)
      | .error _ => mRun (some e) ops paid

/-- Sum of the amounts of all milestones in the live portion. -/
def sumAll : List Milestone → Nat
  | [] => 0
  | m :: ms => m.amount + sumAll ms

/-- Sum of the amounts of the milestones whose status is Released. -/
def sumReleased : List Milestone → Nat
  | [] => 0
  | m :: ms =>
      (if m.status = MilestoneStatus.Released then m.amount else 0) + sumReleased ms

/-- Structural invariant of a live milestone escrow record: released_amount
is exactly the sum of the Released milestones' amounts, the milestone amounts
sum to total_amount, total_amount fits in a u64, and a record still in
Created has released nothing. -/
def msInv (e : MilestoneEscrowAccount) : Prop :=
  e.releasedAmount = sumReleased e.milestones ∧
  sumAll e.milestones = e.totalAmount ∧
  e.totalAmount < U64_MOD ∧
  (e.status = .Created → e.releasedAmount = 0)

/-- Milestone escrow records reachable from a successful creation through
successful, non-closing instructions. -/
inductive MReachable : MilestoneEscrowAccount → Prop where
  | created (escrowId : Nat) (deadline : Int) (termsHash feeBasisPoints : Nat)
      (milestones : List MilestoneInput) (creator recipient arbiter feeRecipient : Nat)
      (now : Int) (e : MilestoneEscrowAccount) (t : Nat)
      (h : createMilestoneEscrow escrowId deadline termsHash feeBasisPoints
             milestones creator recipient arbiter feeRecipient now = .ok (e, t)) :
      MReachable e
  | step (e : MilestoneEscrowAccount) (op : MOp) (r : StepResult MilestoneEscrowAccount)
      (he : MReachable e) (h : mStep e op = .ok r) (hopen : r.closes = none) :
      MReachable r.account

/-- The status edges exactly as the claim words them: Created to Active
(accept), Active to Completed (release, auto-release, milestone completion),
Active to Disputed (dispute), Disputed to Resolved (resolve), Created to
Cancelled and Active to Refunded (refund), plus Disputed to Active for
resolve_milestone_dispute when milestones remain unreleased.  Written from
the claim's words, to be compared with the machine the code implements. -/
def claimedStatusEdge : EscrowStatus → EscrowStatus → Bool
  | .Created, .Active => true
  | .Active, .Completed => true
  | .Active, .Disputed => true
  | .Disputed, .Resolved => true
  | .Created, .Cancelled => true
  | .Active, .Refunded => true
  | .Disputed, .Active => true
  | _, _ => false

/-- Per-instruction status edges of the native machine as implemented. -/
def nOpEdge : NOp → EscrowStatus → EscrowStatus → Bool
  | NOp.accept _ _, .Created, .Active => true
  | NOp.release _, .Active, .Completed => true
  | NOp.requestRefund _ _, .Created, .Cancelled => true
  | NOp.requestRefund _ _, .Active, .Refunded => true
  | NOp.dispute _ _, .Active, .Disputed => true
  | NOp.resolveDispute _ _, .Disputed, .Resolved => true
  | NOp.autoRelease _ _, .Active, .Completed => true
  | _, _, _ => false

/-- Per-instruction status edges of the token machine as implemented. -/
def tOpEdge : TOp → EscrowStatus → EscrowStatus → Bool
  | TOp.accept _ _, .Created, .Active => true
  | TOp.release _, .Active, .Completed => true
  | TOp.refund _ _, .Created, .Cancelled => true
  | TOp.refund _ _, .Active, .Refunded => true
  | TOp.dispute _ _, .Active, .Disputed => true
  | TOp.resolveDispute _ _, .Disputed, .Resolved => true
  | TOp.autoRelease _ _, .Active, .Completed => true
  | _, _, _ => false

/-- Per-instruction status edges of the milestone machine as implemented
(release_milestone may leave the status at Active, and
resolve_milestone_dispute reaches Completed directly from Disputed when it
releases the last milestone). -/
def mOpEdge : MOp → EscrowStatus → EscrowStatus → Bool
  | MOp.accept _ _, .Created, .Active => true
  | MOp.releaseMilestone _ _, .Active, .Active => true
  | MOp.releaseMilestone _ _, .Active, .Completed => true
  | MOp.disputeMilestone _ _, .Active, .Disputed => true
  | MOp.resolveMilestoneDispute _ _ _, .Disputed, .Active => true
  | MOp.resolveMilestoneDispute _ _ _, .Disputed, .Completed => true
  | MOp.refund _ _, .Created, .Cancelled => true
  | MOp.refund _ _, .Active, .Refunded => true
  | _, _, _ => false

/-- Statuses from which each native instruction is permitted to proceed. -/
def nPermitted : NOp → EscrowStatus → Prop
  | NOp.accept _ _, s => s = .Created
  | NOp.release _, s => s = .Active
  | NOp.requestRefund _ _, s => s = .Created ∨ s = .Active
  | NOp.dispute _ _, s => s = .Active
  | NOp.resolveDispute _ _, s => s = .Disputed
  | NOp.autoRelease _ _, s => s = .Active

/-- Identity constraints the native instructions evaluate before their status
check (Anchor checks an account's constraints in declaration order); True for
the instructions whose status constraint comes first. -/
def nAuthFirst : NOp → EscrowAccount → Prop
  | NOp.accept c _, e => c = e.recipient
  | NOp.release c, e => c = e.creator
  | NOp.requestRefund c _, e => c = e.creator
  | NOp.dispute _ _, _ => True
  | NOp.resolveDispute _ _, _ => True
  | NOp.autoRelease _ _, _ => True

/-- Statuses from which each token instruction is permitted to proceed. -/
def tPermitted : TOp → EscrowStatus → Prop
  | TOp.accept _ _, s => s = .Created
  | TOp.release _, s => s = .Active
  | TOp.refund _ _, s => s = .Created ∨ s = .Active
  | TOp.dispute _ _, s => s = .Active
  | TOp.resolveDispute _ _, s => s = .Disputed
  | TOp.autoRelease _ _, s => s = .Active

/-- Identity constraints the token instructions evaluate before their status
check. -/
def tAuthFirst : TOp → TokenEscrowAccount → Prop
  | TOp.accept c _, e => c = e.recipient
  | TOp.release c, e => c = e.creator
  | TOp.refund c _, e => c = e.creator
  | TOp.dispute _ _, _ => True
  | TOp.resolveDispute _ _, _ => True
  | TOp.autoRelease _ _, _ => True

/-- Statuses from which each milestone instruction is permitted to proceed. -/
def mPermitted : MOp → EscrowStatus → Prop
  | MOp.accept _ _, s => s = .Created
  | MOp.releaseMilestone _ _, s => s = .Active
  | MOp.disputeMilestone _ _, s => s = .Active
  | MOp.resolveMilestoneDispute _ _ _, s => s = .Disputed
  | MOp.refund _ _, s => s = .Created ∨ s = .Active

/-- Identity constraints the milestone instructions evaluate before their
status check. -/
def mAuthFirst : MOp → MilestoneEscrowAccount → Prop
  | MOp.accept c _, e => c = e.recipient
  | MOp.releaseMilestone c _, e => c = e.creator
  | MOp.disputeMilestone _ _, _ => True
  | MOp.resolveMilestoneDispute _ _ _, _ => True
  | MOp.refund c _, e => c = e.creator

lemma computeFee_ok_parts {amount bps fee net : Nat}
    (h : computeFee amount bps = .ok (fee, net)) :
    fee + net = amount ∧ fee ≤ amount := by
  unfold computeFee at h
  split at h
  · split at h
    · rename_i hle
      injection h with h'
      injection h' with h1 h2
      subst h1; subst h2
      omega
    · exact absurd h (by simp)
  · exact absurd h (by simp)

lemma computeFee_eq {amount bps : Nat} (ha : amount < U64_MOD) (hb : bps ≤ 1000) :
    computeFee amount bps =
      .ok (amount * bps / 10000, amount - amount * bps / 10000) := by
  have hfee_le : amount * bps / 10000 ≤ amount := by
    have h1 : amount * bps ≤ amount * 10000 := Nat.mul_le_mul_left _ (by omega)
    have h2 : amount * bps / 10000 ≤ amount * 10000 / 10000 := Nat.div_le_div_right h1
    have h3 : amount * 10000 / 10000 = amount := Nat.mul_div_cancel amount (by norm_num)
    omega
  have hmul : amount * bps < U128_MOD := by
    have h1 : amount * bps ≤ amount * 1000 := Nat.mul_le_mul_left _ hb
    have h2 : amount * 1000 < U64_MOD * 1000 := by
      have := Nat.mul_lt_mul_right (by norm_num : 0 < 1000) |>.mpr ha
      simpa using this
    have h3 : U64_MOD * 1000 < U128_MOD := by norm_num [U64_MOD, U128_MOD]
    omega
  have hmod : amount * bps / 10000 % U64_MOD = amount * bps / 10000 :=
    Nat.mod_eq_of_lt (lt_of_le_of_lt hfee_le ha)
  unfold computeFee
  rw [if_pos hmul, hmod, if_pos hfee_le]

lemma trySumU64_some {l : List Nat} :
    ∀ {acc t : Nat}, acc < U64_MOD → trySumU64 l acc = some t →
      t = acc + l.sum ∧ t < U64_MOD := by
  induction l with
  | nil =>
      intro acc t hacc h
      simp only [trySumU64, Option.some.injEq] at h
      subst h
      exact ⟨by simp, hacc⟩
  | cons a rest ih =>
      intro acc t hacc h
      unfold trySumU64 at h
      split at h
      · rename_i hlt
        obtain ⟨h1, h2⟩ := ih hlt h
        constructor
        · simp only [List.sum_cons]; omega
        · exact h2
      · exact absurd h (by simp)

lemma sumReleased_le_sumAll (l : List Milestone) : sumReleased l ≤ sumAll l := by
  induction l with
  | nil => simp [sumReleased, sumAll]
  | cons m ms ih =>
      simp only [sumReleased, sumAll]
      split <;> omega

lemma sumAll_map_inputs (l : List MilestoneInput) :
    sumAll (l.map (fun m => { amount := m.amount, status := .Pending,
                              descriptionHash := m.descriptionHash })) =
      (l.map (·.amount)).sum := by
  induction l with
  | nil => simp [sumAll]
  | cons a rest ih => simp [sumAll, ih]

lemma sumReleased_map_inputs (l : List MilestoneInput) :
    sumReleased (l.map (fun m => { amount := m.amount, status := .Pending,
                                   descriptionHash := m.descriptionHash })) = 0 := by
  induction l with
  | nil => simp [sumReleased]
  | cons a rest ih => simp [sumReleased, ih]

lemma sumAll_set {l : List Milestone} :
    ∀ {i : Nat} {m m' : Milestone}, l[i]? = some m → m'.amount = m.amount →
      sumAll (l.set i m') = sumAll l := by
  induction l with
  | nil => intro i m m' h _; simp at h
  | cons x xs ih =>
      intro i m m' h ha
      cases i with
      | zero =>
          simp only [List.getElem?_cons_zero, Option.some.injEq] at h
          subst h
          simp [sumAll, ha]
      | succ n =>
          simp only [List.getElem?_cons_succ] at h
          simp [sumAll, ih h ha]

lemma sumReleased_set_released {l : List Milestone} :
    ∀ {i : Nat} {m : Milestone}, l[i]? = some m → m.status ≠ .Released →
      sumReleased (l.set i { m with status := .Released }) =
        sumReleased l + m.amount := by
  induction l with
  | nil => intro i m h _; simp at h
  | cons x xs ih =>
      intro i m h hm
      cases i with
      | zero =>
          simp only [List.getElem?_cons_zero, Option.some.injEq] at h
          subst h
          simp [sumReleased, if_neg hm]
          omega
      | succ n =>
          simp only [List.getElem?_cons_succ] at h
          simp only [List.set, sumReleased, ih h hm]
          omega

lemma createMilestoneEscrow_ok {escrowId : Nat} {deadline : Int}
    {termsHash feeBasisPoints : Nat} {milestones : List MilestoneInput}
    {creator recipient arbiter feeRecipient : Nat} {now : Int}
    {e : MilestoneEscrowAccount} {t : Nat}
    (h : createMilestoneEscrow escrowId deadline termsHash feeBasisPoints milestones
           creator recipient arbiter feeRecipient now = .ok (e, t)) :
    msInv e ∧ e.status = .Created ∧ e.releasedAmount = 0 ∧ t = e.totalAmount ∧
    0 < e.totalAmount ∧ (∀ m ∈ e.milestones, m.status = .Pending) ∧
    e.milestones.length = milestones.length := by
  unfold createMilestoneEscrow at h
  split at h
  case isFalse => exact Except.noConfusion h
  split at h
  case isFalse => exact Except.noConfusion h
  split at h
  case isFalse => exact Except.noConfusion h
  split at h
  case h_1 => exact Except.noConfusion h
  rename_i total htr
  split at h
  case isFalse => exact Except.noConfusion h
  rename_i hpos
  obtain ⟨h1, h2⟩ := trySumU64_some (by norm_num [U64_MOD]) htr
  injection h with h'
  injection h' with he ht
  subst he; subst ht
  refine ⟨⟨?_, ?_, ?_, ?_⟩, rfl, rfl, rfl, hpos, ?_, ?_⟩
  · simp [sumReleased_map_inputs]
  · simp only [sumAll_map_inputs]; omega
  · exact h2
  · intro _; rfl
  · intro m hm
    simp only [List.mem_map] at hm
    obtain ⟨x, _, hx⟩ := hm
    simp [← hx]
  · simp

lemma acceptMilestoneTask_ok_props {e : MilestoneEscrowAccount} {caller : Nat}
    {now : Int} {r : StepResult MilestoneEscrowAccount}
    (h : acceptMilestoneTask e caller now = .ok r) (hinv : msInv e) :
    msInv r.account ∧ r.account.totalAmount = e.totalAmount ∧ r.closes = none ∧
    r.account.releasedAmount = e.releasedAmount + payoutTotal r := by
  unfold acceptMilestoneTask at h
  split at h
  · split at h
    · split at h
      · injection h with h'
        subst h'
        obtain ⟨h1, h2, h3, _⟩ := hinv
        exact ⟨⟨h1, h2, h3, by intro hc; exact absurd hc (by simp)⟩, rfl, rfl,
               by simp [payoutTotal]⟩
      · exact absurd h (by simp)
    · exact absurd h (by simp)
  · exact absurd h (by simp)

lemma releaseMilestone_ok_props {e : MilestoneEscrowAccount} {caller idx : Nat}
    {r : StepResult MilestoneEscrowAccount}
    (h : releaseMilestone e caller idx = .ok r) (hinv : msInv e) :
    msInv r.account ∧ r.account.totalAmount = e.totalAmount ∧ r.closes = none ∧
    r.account.releasedAmount = e.releasedAmount + payoutTotal r := by
  unfold releaseMilestone at h
  split at h
  case isFalse => exact Except.noConfusion h
  split at h
  case isFalse => exact Except.noConfusion h
  rename_i hst
  split at h
  case h_1 => exact Except.noConfusion h
  rename_i m hm
  split at h
  case isFalse => exact Except.noConfusion h
  rename_i hpend
  split at h
  case h_1 => exact Except.noConfusion h
  rename_i fee net hcf
  split at h
  case isFalse => exact Except.noConfusion h
  rename_i hadd
  injection h with h'
  subst h'
  obtain ⟨hfn, hfle⟩ := computeFee_ok_parts hcf
  obtain ⟨hrel, hsum, hlt, _⟩ := hinv
  have hsetA : sumAll (e.milestones.set idx { m with status := .Released }) =
      sumAll e.milestones := sumAll_set hm rfl
  have hsetR : sumReleased (e.milestones.set idx { m with status := .Released }) =
      sumReleased e.milestones + m.amount :=
    sumReleased_set_released hm (by rw [hpend]; simp)
  refine ⟨⟨?_, ?_, ?_, ?_⟩, rfl, rfl, ?_⟩
  · show e.releasedAmount + m.amount = sumReleased (e.milestones.set idx _)
    rw [hsetR]; omega
  · show sumAll (e.milestones.set idx _) = e.totalAmount
    rw [hsetA]; exact hsum
  · exact hlt
  · show (if allReleased (e.milestones.set idx _) then EscrowStatus.Completed
          else e.status) = EscrowStatus.Created → _
    intro hc
    split at hc
    · exact absurd hc (by simp)
    · rw [hst] at hc; exact absurd hc (by simp)
  · show e.releasedAmount + m.amount = e.releasedAmount + payoutTotal _
    simp only [payoutTotal]
    omega

lemma sumReleased_set_nonrel {l : List Milestone} :
    ∀ {i : Nat} {m m' : Milestone}, l[i]? = some m → m.status ≠ .Released →
      m'.status ≠ .Released → sumReleased (l.set i m') = sumReleased l := by
  induction l with
  | nil => intro i m m' h _ _; simp at h
  | cons x xs ih =>
      intro i m m' h hm hm'
      cases i with
      | zero =>
          simp only [List.getElem?_cons_zero, Option.some.injEq] at h
          subst h
          simp [sumReleased, if_neg hm, if_neg hm']
      | succ n =>
          simp only [List.getElem?_cons_succ] at h
          simp only [List.set, sumReleased, ih h hm hm']

lemma disputeMilestone_ok_props {e : MilestoneEscrowAccount} {caller idx : Nat}
    {r : StepResult MilestoneEscrowAccount}
    (h : disputeMilestone e caller idx = .ok r) (hinv : msInv e) :
    msInv r.account ∧ r.account.totalAmount = e.totalAmount ∧ r.closes = none ∧
    r.account.releasedAmount = e.releasedAmount + payoutTotal r := by
  unfold disputeMilestone at h
  split at h
  case isFalse => exact Except.noConfusion h
  rename_i hst
  split at h
  case isFalse => exact Except.noConfusion h
  split at h
  case h_1 => exact Except.noConfusion h
  rename_i m hm
  split at h
  case isFalse => exact Except.noConfusion h
  rename_i hpend
  injection h with h'
  subst h'
  obtain ⟨hrel, hsum, hlt, _⟩ := hinv
  have hsetA : sumAll (e.milestones.set idx { m with status := .Disputed }) =
      sumAll e.milestones := sumAll_set hm rfl
  have hsetR : sumReleased (e.milestones.set idx { m with status := .Disputed }) =
      sumReleased e.milestones :=
    sumReleased_set_nonrel hm (by rw [hpend]; simp) (by simp)
  exact ⟨⟨by simpa [hsetR] using hrel, by simpa [hsetA] using hsum, hlt,
          by intro hc; exact absurd hc (by simp)⟩, rfl, rfl,
         by simp [payoutTotal]⟩

lemma resolveMilestoneDispute_ok_props {e : MilestoneEscrowAccount}
    {caller idx : Nat} {winner : DisputeWinner}
    {r : StepResult MilestoneEscrowAccount}
    (h : resolveMilestoneDispute e caller idx winner = .ok r) (hinv : msInv e) :
    msInv r.account ∧ r.account.totalAmount = e.totalAmount ∧ r.closes = none ∧
    r.account.releasedAmount = e.releasedAmount + payoutTotal r := by
  unfold resolveMilestoneDispute at h
  split at h
  case isFalse => exact Except.noConfusion h
  rename_i hst
  split at h
  case isFalse => exact Except.noConfusion h
  split at h
  case h_1 => exact Except.noConfusion h
  rename_i m hm
  split at h
  case isFalse => exact Except.noConfusion h
  rename_i hdis
  obtain ⟨hrel, hsum, hlt, _⟩ := hinv
  have hsetA : sumAll (e.milestones.set idx { m with status := .Released }) =
      sumAll e.milestones := sumAll_set hm rfl
  have hsetR : sumReleased (e.milestones.set idx { m with status := .Released }) =
      sumReleased e.milestones + m.amount :=
    sumReleased_set_released hm (by rw [hdis]; simp)
  split at h
  case h_1 =>
      split at h
      case h_1 => exact Except.noConfusion h
      rename_i fee net hcf
      split at h
      case isFalse => exact Except.noConfusion h
      rename_i hadd
      injection h with h'
      subst h'
      obtain ⟨hfn, hfle⟩ := computeFee_ok_parts hcf
      refine ⟨⟨?_, ?_, hlt, ?_⟩, rfl, rfl, ?_⟩
      · show e.releasedAmount + m.amount = sumReleased (e.milestones.set idx _)
        rw [hsetR]; omega
      · show sumAll (e.milestones.set idx _) = e.totalAmount
        rw [hsetA]; exact hsum
      · show (if allReleased (e.milestones.set idx _) then EscrowStatus.Completed
              else EscrowStatus.Active) = EscrowStatus.Created → _
        intro hc
        split at hc <;> exact absurd hc (by simp)
      · show e.releasedAmount + m.amount = e.releasedAmount + payoutTotal _
        simp only [payoutTotal]
        omega
  case h_2 =>
      split at h
      case isFalse => exact Except.noConfusion h
      rename_i hadd
      injection h with h'
      subst h'
      refine ⟨⟨?_, ?_, hlt, ?_⟩, rfl, rfl, ?_⟩
      · show e.releasedAmount + m.amount = sumReleased (e.milestones.set idx _)
        rw [hsetR]; omega
      · show sumAll (e.milestones.set idx _) = e.totalAmount
        rw [hsetA]; exact hsum
      · show (if allReleased (e.milestones.set idx _) then EscrowStatus.Completed
              else EscrowStatus.Active) = EscrowStatus.Created → _
        intro hc
        split at hc <;> exact absurd hc (by simp)
      · show e.releasedAmount + m.amount = e.releasedAmount + payoutTotal _
        simp only [payoutTotal]
        omega

lemma refundMilestoneEscrow_ok_props {e : MilestoneEscrowAccount} {caller : Nat}
    {now : Int} {r : StepResult MilestoneEscrowAccount}
    (h : refundMilestoneEscrow e caller now = .ok r) (hinv : msInv e) :
    msInv r.account ∧ r.account.totalAmount = e.totalAmount ∧
    r.closes = some e.creator ∧
    payoutTotal r + e.releasedAmount = e.totalAmount ∧
    r.account.releasedAmount = e.releasedAmount := by
  unfold refundMilestoneEscrow at h
  obtain ⟨hrel, hsum, hlt, _⟩ := hinv
  split at h
  case isFalse => exact Except.noConfusion h
  split at h
  case h_1 =>
      split at h
      case isFalse => exact Except.noConfusion h
      rename_i hle
      injection h with h'
      subst h'
      exact ⟨⟨hrel, hsum, hlt, by intro hc; exact absurd hc (by simp)⟩, rfl, rfl,
             by simp only [payoutTotal]; omega, rfl⟩
  case h_2 =>
      split at h
      case isFalse => exact Except.noConfusion h
      split at h
      case isFalse => exact Except.noConfusion h
      rename_i hle
      injection h with h'
      subst h'
      exact ⟨⟨hrel, hsum, hlt, by intro hc; exact absurd hc (by simp)⟩, rfl, rfl,
             by simp only [payoutTotal]; omega, rfl⟩
  case h_3 => exact Except.noConfusion h

lemma mStep_ok_props {e : MilestoneEscrowAccount} {op : MOp}
    {r : StepResult MilestoneEscrowAccount}
    (h : mStep e op = .ok r) (hinv : msInv e) :
    msInv r.account ∧ r.account.totalAmount = e.totalAmount ∧
    (r.closes = none → r.account.releasedAmount = e.releasedAmount + payoutTotal r) ∧
    (r.closes ≠ none → payoutTotal r + e.releasedAmount = e.totalAmount) ∧
    (r.closes ≠ none → r.account.releasedAmount = e.releasedAmount) := by
  cases op with
  | accept c now =>
      obtain ⟨h1, h2, h3, h4⟩ := acceptMilestoneTask_ok_props h hinv
      exact ⟨h1, h2, fun _ => h4, fun hc => absurd h3 hc, fun hc => absurd h3 hc⟩
  | releaseMilestone c idx =>
      obtain ⟨h1, h2, h3, h4⟩ := releaseMilestone_ok_props h hinv
      exact ⟨h1, h2, fun _ => h4, fun hc => absurd h3 hc, fun hc => absurd h3 hc⟩
  | disputeMilestone c idx =>
      obtain ⟨h1, h2, h3, h4⟩ := disputeMilestone_ok_props h hinv
      exact ⟨h1, h2, fun _ => h4, fun hc => absurd h3 hc, fun hc => absurd h3 hc⟩
  | resolveMilestoneDispute c idx w =>
      obtain ⟨h1, h2, h3, h4⟩ := resolveMilestoneDispute_ok_props h hinv
      exact ⟨h1, h2, fun _ => h4, fun hc => absurd h3 hc, fun hc => absurd h3 hc⟩
  | refund c now =>
      obtain ⟨h1, h2, h3, h4, h5⟩ := refundMilestoneEscrow_ok_props h hinv
      refine ⟨h1, h2, fun hc => ?_, fun _ => h4, fun _ => h5⟩
      rw [h3] at hc
      exact absurd hc (by simp)

lemma mRun_none_snd (ops : List MOp) (paid : Nat) : (mRun none ops paid).2 = paid := by
  induction ops with
  | nil => rfl
  | cons op ops ih => simpa [mRun] using ih

lemma mRun_le_total (ops : List MOp) : ∀ (e : MilestoneEscrowAccount) (paid : Nat),
    msInv e → paid = e.releasedAmount →
    (mRun (some e) ops paid).2 ≤ e.totalAmount := by
  induction ops with
  | nil =>
      intro e paid hinv hp
      obtain ⟨hrel, hsum, _, _⟩ := hinv
      have hle := sumReleased_le_sumAll e.milestones
      simp only [mRun]
      omega
  | cons op ops ih =>
      intro e paid hinv hp
      simp only [mRun]
      cases hstep : mStep e op with
      | error err => exact ih e paid hinv hp
      | ok r =>
          obtain ⟨hinv', htot, hopen, hclose, hkeep⟩ := mStep_ok_props hstep hinv
          cases hcl : r.closes with
          | none =>
              simp only [hcl, Option.isSome_none, Bool.false_eq_true, if_false]
              have hrec := ih r.account (paid + payoutTotal r) hinv'
                (by rw [hopen hcl, hp])
              rw [htot] at hrec
              exact hrec
          | some d =>
              simp only [hcl, Option.isSome_some, if_true]
              rw [mRun_none_snd]
              have hc := hclose (by rw [hcl]; simp)
              omega

lemma mReachable_msInv {e : MilestoneEscrowAccount} (h : MReachable e) : msInv e := by
  induction h with
  | created escrowId deadline termsHash feeBasisPoints milestones creator recipient
      arbiter feeRecipient now e t hc =>
      exact (createMilestoneEscrow_ok hc).1
  | step e op r he hstep hopen ih => exact (mStep_ok_props hstep ih).1

lemma releasePayment_eq {e : EscrowAccount} {caller : Nat}
    (hc : caller = e.creator) (hst : e.status = .Active)
    (ha : e.amount < U64_MOD) (hb : e.feeBasisPoints ≤ 1000) :
    releasePayment e caller =
      .ok { account := { e with status := .Completed },
            toRecipient := e.amount - e.amount * e.feeBasisPoints / 10000,
            toFeeRecipient := e.amount * e.feeBasisPoints / 10000,
            closes := some e.creator } := by
  simp [releasePayment, hc, hst, computeFee_eq ha hb]

lemma resolveDispute_recipient_eq {e : EscrowAccount} {caller : Nat}
    (hc : caller = e.arbiter) (hst : e.status = .Disputed)
    (ha : e.amount < U64_MOD) (hb : e.feeBasisPoints ≤ 1000) :
    resolveDispute e caller .Recipient =
      .ok { account := { e with status := .Resolved },
            toRecipient := e.amount - e.amount * e.feeBasisPoints / 10000,
            toFeeRecipient := e.amount * e.feeBasisPoints / 10000,
            closes := some e.creator } := by
  simp [resolveDispute, hc, hst, computeFee_eq ha hb]

lemma resolveDispute_creator_eq {e : EscrowAccount} {caller : Nat}
    (hc : caller = e.arbiter) (hst : e.status = .Disputed) :
    resolveDispute e caller .Creator =
      .ok { account := { e with status := .Resolved },
            toCreator := e.amount, closes := some e.creator } := by
  simp [resolveDispute, hc, hst]

lemma requestRefund_created_eq {e : EscrowAccount} {caller : Nat} {now : Int}
    (hc : caller = e.creator) (hst : e.status = .Created) :
    requestRefund e caller now =
      .ok { account := { e with status := .Cancelled },
            toCreator := e.amount, closes := some e.creator } := by
  simp [requestRefund, hc, hst]

lemma requestRefund_active_eq {e : EscrowAccount} {caller : Nat} {now : Int}
    (hc : caller = e.creator) (hst : e.status = .Active) (hd : e.deadline ≤ now) :
    requestRefund e caller now =
      .ok { account := { e with status := .Refunded },
            toCreator := e.amount, closes := some e.creator } := by
  simp [requestRefund, hc, hst, hd]

lemma requestRefund_early {e : EscrowAccount} {caller : Nat} {now : Int}
    (hc : caller = e.creator) (hst : e.status = .Active) (hd : now < e.deadline) :
    requestRefund e caller now = .error .DeadlineNotReached := by
  simp [requestRefund, hc, hst]
  omega

lemma requestRefund_invalid {e : EscrowAccount} {caller : Nat} {now : Int}
    (hc : caller = e.creator) (h1 : e.status ≠ .Created) (h2 : e.status ≠ .Active) :
    requestRefund e caller now = .error .InvalidStatus := by
  unfold requestRefund
  rw [if_pos hc]
  cases hst : e.status <;> simp_all

lemma autoRelease_disabled {e : EscrowAccount} {c : Nat} {now : Int}
    (hst : e.status = .Active) (h0 : e.autoReleaseAt = 0) :
    autoRelease e c now = .error .AutoReleaseNotEnabled := by
  simp [autoRelease, hst, h0]

lemma autoRelease_early {e : EscrowAccount} {c : Nat} {now : Int}
    (hst : e.status = .Active) (h0 : e.autoReleaseAt ≠ 0) (hn : now < e.autoReleaseAt) :
    autoRelease e c now = .error .AutoReleaseNotReady := by
  simp [autoRelease, hst, h0]
  omega

lemma autoRelease_ready_eq {e : EscrowAccount} {c : Nat} {now : Int}
    (hst : e.status = .Active) (h0 : e.autoReleaseAt ≠ 0) (hn : e.autoReleaseAt ≤ now)
    (ha : e.amount < U64_MOD) (hb : e.feeBasisPoints ≤ 1000) :
    autoRelease e c now =
      .ok { account := { e with status := .Completed },
            toRecipient := e.amount - e.amount * e.feeBasisPoints / 10000,
            toFeeRecipient := e.amount * e.feeBasisPoints / 10000,
            closes := some e.creator } := by
  simp [autoRelease, hst, h0, hn, computeFee_eq ha hb]

lemma autoRelease_ok_status {e : EscrowAccount} {c : Nat} {now : Int}
    {r : StepResult EscrowAccount} (h : autoRelease e c now = .ok r) :
    r.account.status = .Completed := by
  unfold autoRelease at h
  split at h
  case isFalse => exact Except.noConfusion h
  split at h
  case isFalse => exact Except.noConfusion h
  split at h
  case isFalse => exact Except.noConfusion h
  split at h
  case h_1 => exact Except.noConfusion h
  injection h with h'
  subst h'
  rfl

lemma resolveMilestoneDispute_recipient_eq {e : MilestoneEscrowAccount}
    {caller idx : Nat} {m : Milestone}
    (hc : caller = e.arbiter) (hst : e.status = .Disputed)
    (hm : e.milestones[idx]? = some m) (hdis : m.status = .Disputed)
    (ha : m.amount < U64_MOD) (hb : e.feeBasisPoints ≤ 1000)
    (hadd : e.releasedAmount + m.amount < U64_MOD) :
    resolveMilestoneDispute e caller idx .Recipient =
      .ok { account := { e with
              milestones := e.milestones.set idx { m with status := .Released },
              releasedAmount := e.releasedAmount + m.amount,
              status := if allReleased (e.milestones.set idx
                          { m with status := .Released })
                        then .Completed else .Active },
            toRecipient := m.amount - m.amount * e.feeBasisPoints / 10000,
            toFeeRecipient := m.amount * e.feeBasisPoints / 10000 } := by
  simp [resolveMilestoneDispute, hc, hst, hm, hdis, hadd, computeFee_eq ha hb]

lemma resolveMilestoneDispute_creator_eq {e : MilestoneEscrowAccount}
    {caller idx : Nat} {m : Milestone}
    (hc : caller = e.arbiter) (hst : e.status = .Disputed)
    (hm : e.milestones[idx]? = some m) (hdis : m.status = .Disputed)
    (hadd : e.releasedAmount + m.amount < U64_MOD) :
    resolveMilestoneDispute e caller idx .Creator =
      .ok { account := { e with
              milestones := e.milestones.set idx { m with status := .Released },
              releasedAmount := e.releasedAmount + m.amount,
              status := if allReleased (e.milestones.set idx
                          { m with status := .Released })
                        then .Completed else .Active },
            toCreator := m.amount } := by
  simp [resolveMilestoneDispute, hc, hst, hm, hdis, hadd]

lemma refundMilestoneEscrow_created_eq {e : MilestoneEscrowAccount}
    {caller : Nat} {now : Int}
    (hc : caller = e.creator) (hst : e.status = .Created)
    (hle : e.releasedAmount ≤ e.totalAmount) :
    refundMilestoneEscrow e caller now =
      .ok { account := { e with status := .Cancelled },
            toCreator := e.totalAmount - e.releasedAmount,
            closes := some e.creator } := by
  simp [refundMilestoneEscrow, hc, hst, hle]

lemma refundMilestoneEscrow_active_eq {e : MilestoneEscrowAccount}
    {caller : Nat} {now : Int}
    (hc : caller = e.creator) (hst : e.status = .Active)
    (hd : e.deadline ≤ now) (hle : e.releasedAmount ≤ e.totalAmount) :
    refundMilestoneEscrow e caller now =
      .ok { account := { e with status := .Refunded },
            toCreator := e.totalAmount - e.releasedAmount,
            closes := some e.creator } := by
  simp [refundMilestoneEscrow, hc, hst, hd, hle]

lemma refundMilestoneEscrow_early {e : MilestoneEscrowAccount}
    {caller : Nat} {now : Int}
    (hc : caller = e.creator) (hst : e.status = .Active) (hd : now < e.deadline) :
    refundMilestoneEscrow e caller now = .error .DeadlineNotReached := by
  simp [refundMilestoneEscrow, hc, hst]
  omega

lemma refundMilestoneEscrow_invalid {e : MilestoneEscrowAccount}
    {caller : Nat} {now : Int}
    (hc : caller = e.creator) (h1 : e.status ≠ .Created) (h2 : e.status ≠ .Active) :
    refundMilestoneEscrow e caller now = .error .InvalidStatus := by
  unfold refundMilestoneEscrow
  rw [if_pos hc]
  cases hst : e.status <;> simp_all

lemma trySumU64_none {l : List Nat} :
    ∀ {acc : Nat}, acc < U64_MOD → U64_MOD ≤ acc + l.sum →
      trySumU64 l acc = none := by
  induction l with
  | nil => intro acc h1 h2; simp at h2; omega
  | cons a rest ih =>
      intro acc h1 h2
      unfold trySumU64
      have hs : (a :: rest).sum = a + rest.sum := List.sum_cons
      split
      · rename_i hlt
        exact ih hlt (by omega)
      · rfl

lemma trySumU64_eq_some {l : List Nat} :
    ∀ {acc : Nat}, acc + l.sum < U64_MOD →
      trySumU64 l acc = some (acc + l.sum) := by
  induction l with
  | nil => intro acc h; simp [trySumU64]
  | cons a rest ih =>
      intro acc h
      simp only [List.sum_cons] at h
      unfold trySumU64
      rw [if_pos (by omega)]
      rw [ih (by omega)]
      simp only [List.sum_cons]
      congr 1
      omega

/-- C2: for every u64 amount and every bps at most 1000, the payout fee
computation (128-bit intermediate product, floor division by 10000) succeeds
with fee = floor(amount * bps / 10000) and net = amount - fee, and fee + net
= amount and fee is at most amount; in particular the Overflow error branch
is unreachable under these preconditions. -/
theorem fee_calculation_correct (amount bps : Nat)
    (ha : amount < U64_MOD) (hb : bps ≤ 1000) :
    computeFee amount bps =
      .ok (amount * bps / 10000, amount - amount * bps / 10000) ∧
    amount * bps / 10000 + (amount - amount * bps / 10000) = amount ∧
    amount * bps / 10000 ≤ amount := by
  have h := computeFee_eq ha hb
  have hp := computeFee_ok_parts h
  exact ⟨h, hp.1, hp.2⟩

/-- Witness for C2 at amount 1000000, bps 250 (the spec's section 8
scenario: fee 25000, net 975000). -/
theorem fee_calculation_correct_witness :
    computeFee 1000000 250 =
      .ok (1000000 * 250 / 10000, 1000000 - 1000000 * 250 / 10000) ∧
    1000000 * 250 / 10000 + (1000000 - 1000000 * 250 / 10000) = 1000000 ∧
    1000000 * 250 / 10000 ≤ 1000000 :=
  fee_calculation_correct 1000000 250 (by decide) (by decide)

/-- C3: on a Disputed record the arbiter's resolution pays, for winner
Recipient, the fee to fee_recipient and amount - fee to the recipient, and
for winner Creator the full amount to the creator with zero fee; the
single-payment record's status becomes Resolved and the record closes (to
the creator).  The milestone variant does the same scoped to the disputed
milestone's amount. -/
theorem dispute_resolution_winner_asymmetry :
    (∀ e : EscrowAccount,
       e.status = .Disputed → e.amount < U64_MOD → e.feeBasisPoints ≤ 1000 →
       resolveDispute e e.arbiter .Recipient =
         .ok { account := { e with status := .Resolved },
               toRecipient := e.amount - e.amount * e.feeBasisPoints / 10000,
               toFeeRecipient := e.amount * e.feeBasisPoints / 10000,
               closes := some e.creator } ∧
       resolveDispute e e.arbiter .Creator =
         .ok { account := { e with status := .Resolved },
               toCreator := e.amount, closes := some e.creator }) ∧
    (∀ (e : MilestoneEscrowAccount) (idx : Nat) (m : Milestone),
       e.status = .Disputed → e.milestones[idx]? = some m → m.status = .Disputed →
       m.amount < U64_MOD → e.feeBasisPoints ≤ 1000 →
       e.releasedAmount + m.amount < U64_MOD →
       resolveMilestoneDispute e e.arbiter idx .Recipient =
         .ok { account := { e with
                 milestones := e.milestones.set idx { m with status := .Released },
                 releasedAmount := e.releasedAmount + m.amount,
                 status := if allReleased (e.milestones.set idx
                             { m with status := .Released })
                           then .Completed else .Active },
               toRecipient := m.amount - m.amount * e.feeBasisPoints / 10000,
               toFeeRecipient := m.amount * e.feeBasisPoints / 10000 } ∧
       resolveMilestoneDispute e e.arbiter idx .Creator =
         .ok { account := { e with
                 milestones := e.milestones.set idx { m with status := .Released },
                 releasedAmount := e.releasedAmount + m.amount,
                 status := if allReleased (e.milestones.set idx
                             { m with status := .Released })
                           then .Completed else .Active },
               toCreator := m.amount }) :=
  ⟨fun _ hst ha hb =>
     ⟨resolveDispute_recipient_eq rfl hst ha hb, resolveDispute_creator_eq rfl hst⟩,
   fun _ _ _ hst hm hdis ha hb hadd =>
     ⟨resolveMilestoneDispute_recipient_eq rfl hst hm hdis ha hb hadd,
      resolveMilestoneDispute_creator_eq rfl hst hm hdis hadd⟩⟩

/-- Concrete disputed single-payment record for the C3 witness. -/
def w3N : EscrowAccount :=
  { creator := 1, recipient := 2, amount := 1000000, status := .Disputed,
    deadline := 100, termsHash := 7, arbiter := 3, feeBasisPoints := 250,
    feeRecipient := 4, createdAt := 0, escrowId := 5, disputeReason := 9,
    autoReleaseAt := 0 }

/-- Concrete disputed milestone record for the C3 witness. -/
def w3M : MilestoneEscrowAccount :=
  { creator := 1, recipient := 2, totalAmount := 1000000, releasedAmount := 0,
    status := .Disputed, deadline := 100, termsHash := 7, arbiter := 3,
    feeBasisPoints := 250, feeRecipient := 4, createdAt := 0, escrowId := 5,
    milestones := [{ amount := 400000, status := .Disputed, descriptionHash := 11 },
                   { amount := 600000, status := .Pending, descriptionHash := 12 }] }

/-- Witness for C3 on concrete disputed records (spec section 8 scenario
numbers). -/
theorem dispute_resolution_winner_asymmetry_witness :
    (resolveDispute w3N w3N.arbiter .Recipient =
       .ok { account := { w3N with status := .Resolved },
             toRecipient := w3N.amount - w3N.amount * w3N.feeBasisPoints / 10000,
             toFeeRecipient := w3N.amount * w3N.feeBasisPoints / 10000,
             closes := some w3N.creator } ∧
     resolveDispute w3N w3N.arbiter .Creator =
       .ok { account := { w3N with status := .Resolved },
             toCreator := w3N.amount, closes := some w3N.creator }) ∧
    (resolveMilestoneDispute w3M w3M.arbiter 0 .Recipient =
       .ok { account := { w3M with
               milestones := w3M.milestones.set 0
                 { amount := 400000, status := .Released, descriptionHash := 11 },
               releasedAmount := w3M.releasedAmount + 400000,
               status := if allReleased (w3M.milestones.set 0
                           { amount := 400000, status := .Released,
                             descriptionHash := 11 })
                         then .Completed else .Active },
             toRecipient := 400000 - 400000 * w3M.feeBasisPoints / 10000,
             toFeeRecipient := 400000 * w3M.feeBasisPoints / 10000 } ∧
     resolveMilestoneDispute w3M w3M.arbiter 0 .Creator =
       .ok { account := { w3M with
               milestones := w3M.milestones.set 0
                 { amount := 400000, status := .Released, descriptionHash := 11 },
               releasedAmount := w3M.releasedAmount + 400000,
               status := if allReleased (w3M.milestones.set 0
                           { amount := 400000, status := .Released,
                             descriptionHash := 11 })
                         then .Completed else .Active },
             toCreator := 400000 }) :=
  ⟨dispute_resolution_winner_asymmetry.1 w3N rfl (by decide) (by decide),
   dispute_resolution_winner_asymmetry.2 w3M 0
     { amount := 400000, status := .Disputed, descriptionHash := 11 }
     rfl (by decide) rfl (by decide) (by decide) (by decide)⟩

/-- C5: a creator's refund from Created succeeds with no time check, pays the
full escrowed value back (for milestone records the unreleased remainder,
which in any reachable Created state is the whole total), and ends Cancelled;
from Active it succeeds only once now has reached the deadline (else
DeadlineNotReached) and ends Refunded, paying milestone records exactly
total_amount - released_amount; any other status fails InvalidStatus. -/
theorem refund_branching_correct :
    (∀ (e : EscrowAccount) (now : Int), e.status = .Created →
       requestRefund e e.creator now =
         .ok { account := { e with status := .Cancelled },
               toCreator := e.amount, closes := some e.creator }) ∧
    (∀ (e : EscrowAccount) (now : Int), e.status = .Active → e.deadline ≤ now →
       requestRefund e e.creator now =
         .ok { account := { e with status := .Refunded },
               toCreator := e.amount, closes := some e.creator }) ∧
    (∀ (e : EscrowAccount) (now : Int), e.status = .Active → now < e.deadline →
       requestRefund e e.creator now = .error .DeadlineNotReached) ∧
    (∀ (e : EscrowAccount) (now : Int), e.status ≠ .Created → e.status ≠ .Active →
       requestRefund e e.creator now = .error .InvalidStatus) ∧
    (∀ (e : MilestoneEscrowAccount) (now : Int), e.status = .Created →
       e.releasedAmount ≤ e.totalAmount →
       refundMilestoneEscrow e e.creator now =
         .ok { account := { e with status := .Cancelled },
               toCreator := e.totalAmount - e.releasedAmount,
               closes := some e.creator }) ∧
    (∀ (e : MilestoneEscrowAccount) (now : Int), e.status = .Active →
       e.deadline ≤ now → e.releasedAmount ≤ e.totalAmount →
       refundMilestoneEscrow e e.creator now =
         .ok { account := { e with status := .Refunded },
               toCreator := e.totalAmount - e.releasedAmount,
               closes := some e.creator }) ∧
    (∀ (e : MilestoneEscrowAccount) (now : Int), e.status = .Active →
       now < e.deadline →
       refundMilestoneEscrow e e.creator now = .error .DeadlineNotReached) ∧
    (∀ (e : MilestoneEscrowAccount) (now : Int), e.status ≠ .Created →
       e.status ≠ .Active →
       refundMilestoneEscrow e e.creator now = .error .InvalidStatus) ∧
    (∀ e : MilestoneEscrowAccount, MReachable e → e.status = .Created →
       e.releasedAmount = 0) :=
  ⟨fun _ _ hst => requestRefund_created_eq rfl hst,
   fun _ _ hst hd => requestRefund_active_eq rfl hst hd,
   fun _ _ hst hd => requestRefund_early rfl hst hd,
   fun _ _ h1 h2 => requestRefund_invalid rfl h1 h2,
   fun _ _ hst hle => refundMilestoneEscrow_created_eq rfl hst hle,
   fun _ _ hst hd hle => refundMilestoneEscrow_active_eq rfl hst hd hle,
   fun _ _ hst hd => refundMilestoneEscrow_early rfl hst hd,
   fun _ _ h1 h2 => refundMilestoneEscrow_invalid rfl h1 h2,
   fun _ hr hc => (mReachable_msInv hr).2.2.2 hc⟩

/-- Concrete Created single-payment record for the C5 witness. -/
def w5N : EscrowAccount :=
  { creator := 1, recipient := 2, amount := 777, status := .Created,
    deadline := 100, termsHash := 7, arbiter := 3, feeBasisPoints := 100,
    feeRecipient := 4, createdAt := 0, escrowId := 5, disputeReason := 0,
    autoReleaseAt := 0 }

/-- Concrete Active milestone record for the C5 witness. -/
def w5M : MilestoneEscrowAccount :=
  { creator := 1, recipient := 2, totalAmount := 1000, releasedAmount := 400,
    status := .Active, deadline := 100, termsHash := 7, arbiter := 3,
    feeBasisPoints := 100, feeRecipient := 4, createdAt := 0, escrowId := 5,
    milestones := [{ amount := 400, status := .Released, descriptionHash := 11 },
                   { amount := 600, status := .Pending, descriptionHash := 12 }] }

/-- Witness for C5: cancel from Created at an arbitrary early time, refund of
the unreleased remainder from Active past the deadline, and the premature
refund failing DeadlineNotReached. -/
theorem refund_branching_correct_witness :
    requestRefund w5N w5N.creator (-50) =
      .ok { account := { w5N with status := .Cancelled },
            toCreator := w5N.amount, closes := some w5N.creator } ∧
    refundMilestoneEscrow w5M w5M.creator 150 =
      .ok { account := { w5M with status := .Refunded },
            toCreator := w5M.totalAmount - w5M.releasedAmount,
            closes := some w5M.creator } ∧
    refundMilestoneEscrow w5M w5M.creator 50 = .error .DeadlineNotReached :=
  ⟨refund_branching_correct.1 w5N (-50) rfl,
   refund_branching_correct.2.2.2.2.2.1 w5M 150 rfl (by decide) (by decide),
   refund_branching_correct.2.2.2.2.2.2.1 w5M 50 rfl (by decide)⟩

/-- C6: on an Active record, auto_release fails AutoReleaseNotEnabled when
auto_release_at is 0, fails AutoReleaseNotReady while now is before
auto_release_at, and otherwise performs exactly the release_payment payout
(fee to fee_recipient, remainder to recipient) and closes the record with
status Completed; the caller's identity never matters, and a repeat
invocation on the resulting record fails InvalidStatus. -/
theorem auto_release_gating_exactly_once :
    (∀ (e : EscrowAccount) (c : Nat) (now : Int),
       e.status = .Active → e.autoReleaseAt = 0 →
       autoRelease e c now = .error .AutoReleaseNotEnabled) ∧
    (∀ (e : EscrowAccount) (c : Nat) (now : Int),
       e.status = .Active → e.autoReleaseAt ≠ 0 → now < e.autoReleaseAt →
       autoRelease e c now = .error .AutoReleaseNotReady) ∧
    (∀ (e : EscrowAccount) (c : Nat) (now : Int),
       e.status = .Active → e.autoReleaseAt ≠ 0 → e.autoReleaseAt ≤ now →
       e.amount < U64_MOD → e.feeBasisPoints ≤ 1000 →
       autoRelease e c now =
         .ok { account := { e with status := .Completed },
               toRecipient := e.amount - e.amount * e.feeBasisPoints / 10000,
               toFeeRecipient := e.amount * e.feeBasisPoints / 10000,
               closes := some e.creator } ∧
       autoRelease e c now = releasePayment e e.creator) ∧
    (∀ (e : EscrowAccount) (c₁ c₂ : Nat) (now : Int),
       autoRelease e c₁ now = autoRelease e c₂ now) ∧
    (∀ (e : EscrowAccount) (c : Nat) (now : Int) (r : StepResult EscrowAccount)
       (c₂ : Nat) (now₂ : Int), autoRelease e c now = .ok r →
       autoRelease r.account c₂ now₂ = .error .InvalidStatus) := by
  refine ⟨fun _ _ _ hst h0 => autoRelease_disabled hst h0,
          fun _ _ _ hst h0 hn => autoRelease_early hst h0 hn,
          fun e c now hst h0 hn ha hb =>
            ⟨autoRelease_ready_eq hst h0 hn ha hb,
             (autoRelease_ready_eq hst h0 hn ha hb).trans
               (releasePayment_eq rfl hst ha hb).symm⟩,
          fun _ _ _ _ => rfl,
          fun e c now r c₂ now₂ h => ?_⟩
  have hs := autoRelease_ok_status h
  simp [autoRelease, hs]

/-- Concrete Active record with auto-release enabled for the C6 witness. -/
def w6N : EscrowAccount :=
  { creator := 1, recipient := 2, amount := 1000000, status := .Active,
    deadline := 40, termsHash := 7, arbiter := 3, feeBasisPoints := 250,
    feeRecipient := 4, createdAt := 0, escrowId := 5, disputeReason := 0,
    autoReleaseAt := 50 }

/-- Witness for C6: an arbitrary caller (pubkey 999) triggers the release
once the timestamp is reached, with the exact release_payment payout; before
the timestamp it fails AutoReleaseNotReady. -/
theorem auto_release_gating_exactly_once_witness :
    (autoRelease w6N 999 60 =
       .ok { account := { w6N with status := .Completed },
             toRecipient := w6N.amount - w6N.amount * w6N.feeBasisPoints / 10000,
             toFeeRecipient := w6N.amount * w6N.feeBasisPoints / 10000,
             closes := some w6N.creator } ∧
     autoRelease w6N 999 60 = releasePayment w6N w6N.creator) ∧
    autoRelease w6N 999 45 = .error .AutoReleaseNotReady :=
  ⟨auto_release_gating_exactly_once.2.2.1 w6N 999 60 rfl (by decide) (by decide)
     (by decide) (by decide),
   auto_release_gating_exactly_once.2.1 w6N 999 45 rfl (by decide) (by decide)⟩

/-- C1: over every sequence of instructions on one milestone escrow created
by a successful create_milestone_escrow, the total value paid out (milestone
releases, dispute resolutions to either winner, and the final refund of the
unreleased remainder) never exceeds total_amount; resolving a milestone
dispute with winner Creator marks that milestone Released and adds its
amount to released_amount, and any refund pays exactly total_amount -
released_amount, so one milestone's value is never paid twice. -/
theorem milestone_value_conservation :
    (∀ (escrowId : Nat) (deadline : Int) (termsHash feeBasisPoints : Nat)
       (milestones : List MilestoneInput)
       (creator recipient arbiter feeRecipient : Nat) (now : Int)
       (e : MilestoneEscrowAccount) (t : Nat),
       createMilestoneEscrow escrowId deadline termsHash feeBasisPoints milestones
           creator recipient arbiter feeRecipient now = .ok (e, t) →
       ∀ ops : List MOp, (mRun (some e) ops 0).2 ≤ e.totalAmount) ∧
    (∀ (e : MilestoneEscrowAccount) (caller idx : Nat)
       (r : StepResult MilestoneEscrowAccount) (m : Milestone),
       e.milestones[idx]? = some m →
       resolveMilestoneDispute e caller idx .Creator = .ok r →
       r.account.milestones = e.milestones.set idx { m with status := .Released } ∧
       r.account.releasedAmount = e.releasedAmount + m.amount ∧
       r.toCreator = m.amount) ∧
    (∀ (e : MilestoneEscrowAccount) (caller : Nat) (now : Int)
       (r : StepResult MilestoneEscrowAccount),
       refundMilestoneEscrow e caller now = .ok r →
       r.toCreator = e.totalAmount - e.releasedAmount) := by
  refine ⟨?_, ?_, ?_⟩
  · intro escrowId deadline termsHash feeBasisPoints milestones creator recipient
      arbiter feeRecipient now e t h ops
    obtain ⟨hinv, _, hrel0, _⟩ := createMilestoneEscrow_ok h
    exact mRun_le_total ops e 0 hinv hrel0.symm
  · intro e caller idx r m hm h
    unfold resolveMilestoneDispute at h
    split at h
    case isFalse => exact Except.noConfusion h
    split at h
    case isFalse => exact Except.noConfusion h
    split at h
    case h_1 => exact Except.noConfusion h
    rename_i m' hm'
    rw [hm] at hm'
    injection hm' with hmm
    subst hmm
    split at h
    case isFalse => exact Except.noConfusion h
    split at h
    case h_1 => rename_i hx heq; exact absurd heq (by simp)
    split at h
    case isFalse => exact Except.noConfusion h
    injection h with h'
    subst h'
    exact ⟨rfl, rfl, rfl⟩
  · intro e caller now r h
    unfold refundMilestoneEscrow at h
    split at h
    case isFalse => exact Except.noConfusion h
    split at h
    case h_1 =>
        split at h
        case isFalse => exact Except.noConfusion h
        injection h with h'
        subst h'
        rfl
    case h_2 =>
        split at h
        case isFalse => exact Except.noConfusion h
        split at h
        case isFalse => exact Except.noConfusion h
        injection h with h'
        subst h'
        rfl
    case h_3 => exact Except.noConfusion h

/-- Concrete freshly created two-milestone escrow shared by the C1 and C7
witnesses. -/
def w1E : MilestoneEscrowAccount :=
  { creator := 1, recipient := 2, totalAmount := 1000000, releasedAmount := 0,
    status := .Created, deadline := 100, termsHash := 7, arbiter := 3,
    feeBasisPoints := 250, feeRecipient := 4, createdAt := 0, escrowId := 1,
    milestones := [{ amount := 400000, status := .Pending, descriptionHash := 11 },
                   { amount := 600000, status := .Pending, descriptionHash := 12 }] }

/-- Witness for C1: accept, dispute milestone 0, resolve it for the creator,
then refund after the deadline; the total paid out stays within
total_amount. -/
theorem milestone_value_conservation_witness :
    (mRun (some w1E)
      [MOp.accept 2 5, MOp.disputeMilestone 2 0,
       MOp.resolveMilestoneDispute 3 0 .Creator, MOp.refund 1 1000] 0).2 ≤
      w1E.totalAmount :=
  milestone_value_conservation.1 1 100 7 250
    [{ amount := 400000, descriptionHash := 11 },
     { amount := 600000, descriptionHash := 12 }] 1 2 3 4 0 w1E 1000000
    rfl
    [MOp.accept 2 5, MOp.disputeMilestone 2 0,
     MOp.resolveMilestoneDispute 3 0 .Creator, MOp.refund 1 1000]

/-- C7: in every reachable state of a milestone escrow, released_amount
equals the sum of the amounts of the Released milestones and never exceeds
total_amount, and every successful instruction leaves it no smaller. -/
theorem released_amount_invariant :
    (∀ e : MilestoneEscrowAccount, MReachable e →
       e.releasedAmount = sumReleased e.milestones ∧
       e.releasedAmount ≤ e.totalAmount) ∧
    (∀ (e : MilestoneEscrowAccount) (op : MOp)
       (r : StepResult MilestoneEscrowAccount), MReachable e →
       mStep e op = .ok r →
       e.releasedAmount ≤ r.account.releasedAmount) := by
  constructor
  · intro e hr
    obtain ⟨h1, h2, _, _⟩ := mReachable_msInv hr
    have hle := sumReleased_le_sumAll e.milestones
    exact ⟨h1, by omega⟩
  · intro e op r hr h
    obtain ⟨_, _, hopen, _, hkeep⟩ := mStep_ok_props h (mReachable_msInv hr)
    cases hcl : r.closes with
    | none => have := hopen hcl; omega
    | some d => have := hkeep (by rw [hcl]; simp); omega

/-- Witness for C7 at the concrete freshly created record w1E. -/
theorem released_amount_invariant_witness :
    w1E.releasedAmount = sumReleased w1E.milestones ∧
    w1E.releasedAmount ≤ w1E.totalAmount :=
  released_amount_invariant.1 w1E
    (MReachable.created 1 100 7 250
      [{ amount := 400000, descriptionHash := 11 },
       { amount := 600000, descriptionHash := 12 }] 1 2 3 4 0 w1E 1000000
      rfl)

/-- C8: milestone-escrow creation fails TooManyMilestones when the input list
is empty or longer than 10; with the earlier checks passed it fails Overflow
when the u64 summation of the amounts overflows and ZeroAmount when the
total is 0; on success it transfers exactly total_amount from the creator,
every milestone starts Pending, the record status is Created, and the
milestone amounts sum to total_amount exactly. -/
theorem milestone_creation_correct :
    (∀ (escrowId : Nat) (deadline : Int) (termsHash feeBasisPoints : Nat)
       (milestones : List MilestoneInput)
       (creator recipient arbiter feeRecipient : Nat) (now : Int),
       (milestones.length = 0 ∨ milestones.length > MAX_MILESTONES) →
       createMilestoneEscrow escrowId deadline termsHash feeBasisPoints milestones
           creator recipient arbiter feeRecipient now = .error .TooManyMilestones) ∧
    (∀ (escrowId : Nat) (deadline : Int) (termsHash feeBasisPoints : Nat)
       (milestones : List MilestoneInput)
       (creator recipient arbiter feeRecipient : Nat) (now : Int),
       0 < milestones.length → milestones.length ≤ MAX_MILESTONES →
       feeBasisPoints ≤ 1000 → deadline > now →
       U64_MOD ≤ (milestones.map (·.amount)).sum →
       createMilestoneEscrow escrowId deadline termsHash feeBasisPoints milestones
           creator recipient arbiter feeRecipient now = .error .Overflow) ∧
    (∀ (escrowId : Nat) (deadline : Int) (termsHash feeBasisPoints : Nat)
       (milestones : List MilestoneInput)
       (creator recipient arbiter feeRecipient : Nat) (now : Int),
       0 < milestones.length → milestones.length ≤ MAX_MILESTONES →
       feeBasisPoints ≤ 1000 → deadline > now →
       (milestones.map (·.amount)).sum = 0 →
       createMilestoneEscrow escrowId deadline termsHash feeBasisPoints milestones
           creator recipient arbiter feeRecipient now = .error .ZeroAmount) ∧
    (∀ (escrowId : Nat) (deadline : Int) (termsHash feeBasisPoints : Nat)
       (milestones : List MilestoneInput)
       (creator recipient arbiter feeRecipient : Nat) (now : Int)
       (e : MilestoneEscrowAccount) (t : Nat),
       createMilestoneEscrow escrowId deadline termsHash feeBasisPoints milestones
           creator recipient arbiter feeRecipient now = .ok (e, t) →
       t = e.totalAmount ∧ e.status = .Created ∧
       (∀ m ∈ e.milestones, m.status = .Pending) ∧
       sumAll e.milestones = e.totalAmount ∧ 0 < e.totalAmount) := by
  refine ⟨?_, ?_, ?_, ?_⟩
  · intro escrowId deadline termsHash feeBasisPoints milestones creator recipient
      arbiter feeRecipient now h
    simp only [MAX_MILESTONES] at h
    unfold createMilestoneEscrow
    rw [if_neg (by simp only [MAX_MILESTONES]; omega)]
  · intro escrowId deadline termsHash feeBasisPoints milestones creator recipient
      arbiter feeRecipient now h1 h2 hb hd hsum
    unfold createMilestoneEscrow
    rw [if_pos ⟨h1, h2⟩, if_pos hb, if_pos hd,
        trySumU64_none (by norm_num [U64_MOD]) (by simpa using hsum)]
  · intro escrowId deadline termsHash feeBasisPoints milestones creator recipient
      arbiter feeRecipient now h1 h2 hb hd hsum
    unfold createMilestoneEscrow
    rw [if_pos ⟨h1, h2⟩, if_pos hb, if_pos hd,
        trySumU64_eq_some (by simp [hsum, U64_MOD])]
    simp [hsum]
  · intro escrowId deadline termsHash feeBasisPoints milestones creator recipient
      arbiter feeRecipient now e t h
    obtain ⟨⟨_, hsum, _, _⟩, hst, _, ht, hpos, hpend, _⟩ :=
      createMilestoneEscrow_ok h
    exact ⟨ht, hst, hpend, hsum, hpos⟩

/-- Witness for C8: the empty milestone list is rejected with
TooManyMilestones, and a concrete successful creation satisfies the success
clause. -/
theorem milestone_creation_correct_witness :
    createMilestoneEscrow 2 100 7 0 [] 1 2 3 4 0 =
      .error .TooManyMilestones ∧
    (1000000 = w1E.totalAmount ∧ w1E.status = .Created ∧
     (∀ m ∈ w1E.milestones, m.status = .Pending) ∧
     sumAll w1E.milestones = w1E.totalAmount ∧ 0 < w1E.totalAmount) :=
  ⟨milestone_creation_correct.1 2 100 7 0 [] 1 2 3 4 0 (Or.inl rfl),
   milestone_creation_correct.2.2.2 1 100 7 250
     [{ amount := 400000, descriptionHash := 11 },
      { amount := 600000, descriptionHash := 12 }] 1 2 3 4 0 w1E 1000000 rfl⟩

lemma computeFee_ne_mam (a b : Nat) :
    computeFee a b ≠ .error .MilestoneAmountMismatch := by
  intro h
  unfold computeFee at h
  split at h
  · split at h <;> simp_all
  · simp_all

/-- C10: the error MilestoneAmountMismatch is declared in errors.rs but no
instruction of any escrow family - no handler body and no account
constraint, creation included - ever returns it. -/
theorem milestone_amount_mismatch_never_raised :
    (∀ (e : EscrowAccount) (op : NOp),
       nStep e op ≠ .error .MilestoneAmountMismatch) ∧
    (∀ (e : TokenEscrowAccount) (op : TOp),
       tStep e op ≠ .error .MilestoneAmountMismatch) ∧
    (∀ (e : MilestoneEscrowAccount) (op : MOp),
       mStep e op ≠ .error .MilestoneAmountMismatch) ∧
    (∀ (escrowId amount : Nat) (deadline : Int) (termsHash feeBasisPoints : Nat)
       (autoReleaseAt : Int) (creator recipient arbiter feeRecipient : Nat)
       (now : Int),
       createEscrow escrowId amount deadline termsHash feeBasisPoints
           autoReleaseAt creator recipient arbiter feeRecipient now ≠
         .error .MilestoneAmountMismatch) ∧
    (∀ (escrowId amount : Nat) (deadline : Int) (termsHash feeBasisPoints : Nat)
       (autoReleaseAt : Int) (creator recipient arbiter feeRecipient mint : Nat)
       (now : Int),
       createTokenEscrow escrowId amount deadline termsHash feeBasisPoints
           autoReleaseAt creator recipient arbiter feeRecipient mint now ≠
         .error .MilestoneAmountMismatch) ∧
    (∀ (escrowId : Nat) (deadline : Int) (termsHash feeBasisPoints : Nat)
       (milestones : List MilestoneInput)
       (creator recipient arbiter feeRecipient : Nat) (now : Int),
       createMilestoneEscrow escrowId deadline termsHash feeBasisPoints
           milestones creator recipient arbiter feeRecipient now ≠
         .error .MilestoneAmountMismatch) := by
  refine ⟨?_, ?_, ?_, ?_, ?_, ?_⟩
  · intro e op h
    cases op <;> simp only [nStep, acceptTask, releasePayment, requestRefund,
        dispute, resolveDispute, autoRelease] at h <;>
      (repeat' split at h) <;> simp_all [computeFee_ne_mam]
  · intro e op h
    cases op <;> simp only [tStep, acceptTokenTask, releaseTokenPayment,
        refundTokenEscrow, disputeToken, resolveTokenDispute,
        autoReleaseToken] at h <;>
      (repeat' split at h) <;> simp_all [computeFee_ne_mam]
  · intro e op h
    cases op <;> simp only [mStep, acceptMilestoneTask, releaseMilestone,
        disputeMilestone, resolveMilestoneDispute,
        refundMilestoneEscrow] at h <;>
      (repeat' split at h) <;> simp_all [computeFee_ne_mam]
  · intro escrowId amount deadline termsHash feeBasisPoints autoReleaseAt
      creator recipient arbiter feeRecipient now h
    unfold createEscrow at h
    (repeat' split at h) <;> simp_all
  · intro escrowId amount deadline termsHash feeBasisPoints autoReleaseAt
      creator recipient arbiter feeRecipient mint now h
    unfold createTokenEscrow at h
    (repeat' split at h) <;> simp_all
  · intro escrowId deadline termsHash feeBasisPoints milestones creator
      recipient arbiter feeRecipient now h
    unfold createMilestoneEscrow at h
    (repeat' split at h) <;> simp_all

/-- Witness for C10 at a concrete record and instruction. -/
theorem milestone_amount_mismatch_never_raised_witness :
    mStep w1E (MOp.accept 2 5) ≠ .error .MilestoneAmountMismatch :=
  milestone_amount_mismatch_never_raised.2.2.1 w1E (MOp.accept 2 5)

/-- One-milestone escrow as created by create_milestone_escrow (scenario
shared by the C4 and C9 refutations). -/
def cexCreated : MilestoneEscrowAccount :=
  { creator := 1, recipient := 2, totalAmount := 5, releasedAmount := 0,
    status := .Created, deadline := 100, termsHash := 7, arbiter := 3,
    feeBasisPoints := 250, feeRecipient := 4, createdAt := 0, escrowId := 9,
    milestones := [{ amount := 5, status := .Pending, descriptionHash := 1 }] }

/-- The same record after the recipient accepts. -/
def cexActive : MilestoneEscrowAccount := { cexCreated with status := .Active }

/-- The same record after the creator disputes milestone 0. -/
def cexDisputed : MilestoneEscrowAccount :=
  { cexCreated with
    status := .Disputed
    milestones := [{ amount := 5, status := .Disputed, descriptionHash := 1 }] }

/-- The same record after the single milestone is released: status Completed,
everything paid out, record still open. -/
def cexCompleted : MilestoneEscrowAccount :=
  { cexCreated with
    status := .Completed
    releasedAmount := 5
    milestones := [{ amount := 5, status := .Released, descriptionHash := 1 }] }

lemma cexCreated_reachable : MReachable cexCreated :=
  .created 9 100 7 250 [{ amount := 5, descriptionHash := 1 }] 1 2 3 4 0
    cexCreated 5 rfl

lemma cexActive_reachable : MReachable cexActive :=
  .step cexCreated (.accept 2 5) { account := cexActive }
    cexCreated_reachable rfl rfl

lemma cexDisputed_reachable : MReachable cexDisputed :=
  .step cexActive (.disputeMilestone 1 0) { account := cexDisputed }
    cexActive_reachable rfl rfl

lemma cexCompleted_reachable : MReachable cexCompleted :=
  .step cexActive (.releaseMilestone 1 0)
    { account := cexCompleted, toRecipient := 5 }
    cexActive_reachable rfl rfl

/-- C4 counterexample: on a reachable one-milestone escrow in status
Disputed, resolve_milestone_dispute releases the last milestone and moves the
status directly from Disputed to Completed, an edge absent from the claim's
edge list (which from Disputed allows only Resolved, or Active when
milestones remain unreleased). -/
theorem status_machine_counterexample :
    MReachable cexDisputed ∧
    cexDisputed.status = .Disputed ∧
    (mStep cexDisputed (MOp.resolveMilestoneDispute 3 0 .Creator)).map
        (fun r => r.account.status) = .ok .Completed ∧
    (EscrowStatus.Completed = EscrowStatus.Disputed → False) ∧
    claimedStatusEdge .Disputed .Completed = false :=
  ⟨cexDisputed_reachable, rfl, rfl, fun hc => EscrowStatus.noConfusion hc, rfl⟩

/-- C4 amended: successful instructions move the status only along the
per-instruction edges of nOpEdge, tOpEdge and mOpEdge - the claim's list
extended with the Disputed-to-Completed edge taken by
resolve_milestone_dispute when it releases the last milestone (and
release_milestone keeping status Active when milestones remain); and any
instruction invoked, by a caller passing the identity constraints that are
checked before the status constraint, from a status not permitted for it
fails with InvalidStatus (the transaction aborts, so the record is
unchanged). -/
theorem status_machine_amended :
    (∀ (e : EscrowAccount) (op : NOp) (r : StepResult EscrowAccount),
       nStep e op = .ok r → nOpEdge op e.status r.account.status = true) ∧
    (∀ (e : TokenEscrowAccount) (op : TOp) (r : StepResult TokenEscrowAccount),
       tStep e op = .ok r → tOpEdge op e.status r.account.status = true) ∧
    (∀ (e : MilestoneEscrowAccount) (op : MOp)
       (r : StepResult MilestoneEscrowAccount),
       mStep e op = .ok r → mOpEdge op e.status r.account.status = true) ∧
    (∀ (e : EscrowAccount) (op : NOp), nAuthFirst op e →
       ¬ nPermitted op e.status → nStep e op = .error .InvalidStatus) ∧
    (∀ (e : TokenEscrowAccount) (op : TOp), tAuthFirst op e →
       ¬ tPermitted op e.status → tStep e op = .error .InvalidStatus) ∧
    (∀ (e : MilestoneEscrowAccount) (op : MOp), mAuthFirst op e →
       ¬ mPermitted op e.status → mStep e op = .error .InvalidStatus) := by
  refine ⟨?_, ?_, ?_, ?_, ?_, ?_⟩
  · intro e op r h
    cases op <;> simp only [nStep, acceptTask, releasePayment, requestRefund,
        dispute, resolveDispute, autoRelease] at h <;>
      (repeat' split at h) <;>
      first
        | exact Except.noConfusion h
        | (injection h with h'; subst h'; simp_all [nOpEdge])
  · intro e op r h
    cases op <;> simp only [tStep, acceptTokenTask, releaseTokenPayment,
        refundTokenEscrow, disputeToken, resolveTokenDispute,
        autoReleaseToken] at h <;>
      (repeat' split at h) <;>
      first
        | exact Except.noConfusion h
        | (injection h with h'; subst h'; simp_all [tOpEdge])
  · intro e op r h
    cases op <;> simp only [mStep, acceptMilestoneTask, releaseMilestone,
        disputeMilestone, resolveMilestoneDispute,
        refundMilestoneEscrow] at h <;>
      (repeat' split at h) <;>
      first
        | exact Except.noConfusion h
        | (injection h with h'; subst h'; simp_all [mOpEdge])
  · intro e op hA hP
    cases op <;> cases hst : e.status <;>
      simp_all [nStep, acceptTask, releasePayment, requestRefund, dispute,
        resolveDispute, autoRelease, nAuthFirst, nPermitted]
  · intro e op hA hP
    cases op <;> cases hst : e.status <;>
      simp_all [tStep, acceptTokenTask, releaseTokenPayment, refundTokenEscrow,
        disputeToken, resolveTokenDispute, autoReleaseToken, tAuthFirst,
        tPermitted]
  · intro e op hA hP
    cases op <;> cases hst : e.status <;>
      simp_all [mStep, acceptMilestoneTask, releaseMilestone, disputeMilestone,
        resolveMilestoneDispute, refundMilestoneEscrow, mAuthFirst, mPermitted]

/-- Witness for the amended C4 statement: a refund attempted on the concrete
Disputed record fails InvalidStatus. -/
theorem status_machine_amended_witness :
    mStep cexDisputed (MOp.refund 1 50) = .error .InvalidStatus :=
  status_machine_amended.2.2.2.2.2 cexDisputed (MOp.refund 1 50) rfl
    (by simp [mPermitted, cexDisputed])

/-- C9 counterexample: on a reachable one-milestone escrow, releasing the
last milestone reaches status Completed with the record left open and its
value exhausted, and the refund path then fails InvalidStatus (at the
concrete time 1000, far past the deadline), so closure is not reachable
through refund once value is exhausted. -/
theorem lifecycle_closure_counterexample :
    MReachable cexCompleted ∧
    cexCompleted.releasedAmount = cexCompleted.totalAmount ∧
    (mStep cexActive (MOp.releaseMilestone 1 0)).map
        (fun r => (r.account, r.closes)) = .ok (cexCompleted, none) ∧
    refundMilestoneEscrow cexCompleted 1 1000 = .error .InvalidStatus :=
  ⟨cexCompleted_reachable, rfl, rfl, rfl⟩

/-- C9 amended: releasing the last milestone sets status Completed without
closing the record; from status Completed no milestone-escrow instruction
succeeds, so such a record is never closed and its residual storage cost is
stranded; the refund instruction is the only one that closes the record
(always to the creator), and it is available only from Created or Active. -/
theorem lifecycle_closure_amended :
    (∀ (e : MilestoneEscrowAccount) (caller idx : Nat)
       (r : StepResult MilestoneEscrowAccount),
       releaseMilestone e caller idx = .ok r →
       r.closes = none ∧
       (allReleased r.account.milestones = true → r.account.status = .Completed) ∧
       (allReleased r.account.milestones = false → r.account.status = e.status)) ∧
    (∀ (e : MilestoneEscrowAccount) (op : MOp)
       (r : StepResult MilestoneEscrowAccount),
       e.status = .Completed → mStep e op ≠ .ok r) ∧
    (∀ (e : MilestoneEscrowAccount) (op : MOp)
       (r : StepResult MilestoneEscrowAccount),
       mStep e op = .ok r →
       r.closes = none ∨
       (r.closes = some e.creator ∧ ∃ (c : Nat) (now : Int), op = MOp.refund c now)) := by
  refine ⟨?_, ?_, ?_⟩
  · intro e caller idx r h
    unfold releaseMilestone at h
    split at h
    case isFalse => exact Except.noConfusion h
    split at h
    case isFalse => exact Except.noConfusion h
    split at h
    case h_1 => exact Except.noConfusion h
    rename_i m hm
    split at h
    case isFalse => exact Except.noConfusion h
    split at h
    case h_1 => exact Except.noConfusion h
    rename_i fee net hcf
    split at h
    case isFalse => exact Except.noConfusion h
    injection h with h'
    subst h'
    refine ⟨rfl, fun hall => ?_, fun hall => ?_⟩
    · show (if allReleased _ then EscrowStatus.Completed else e.status) = _
      simp only [hall] at *
      simp [hall]
    · show (if allReleased _ then EscrowStatus.Completed else e.status) = _
      simp [hall]
  · intro e op r hst h
    cases op <;> simp only [mStep, acceptMilestoneTask, releaseMilestone,
        disputeMilestone, resolveMilestoneDispute,
        refundMilestoneEscrow] at h <;>
      (repeat' split at h) <;>
      first
        | exact Except.noConfusion h
        | simp_all
  · intro e op r h
    cases op <;> simp only [mStep, acceptMilestoneTask, releaseMilestone,
        disputeMilestone, resolveMilestoneDispute,
        refundMilestoneEscrow] at h <;>
      (repeat' split at h) <;>
      first
        | exact Except.noConfusion h
        | (injection h with h'; subst h'; simp)

/-- Witness for the amended C9 statement: the concrete Completed record
rejects a refund attempt. -/
theorem lifecycle_closure_amended_witness :
    mStep cexCompleted (MOp.refund 1 1000) ≠ .ok { account := cexCompleted } :=
  lifecycle_closure_amended.2.1 cexCompleted (MOp.refund 1 1000)
    { account := cexCompleted } rfl

/-- Minimality of the C4 amendment: every native and token edge is already
in the claim's edge list, and the milestone edges add only the
stay-at-Active non-change of release_milestone and the Disputed-to-Completed
completion of resolve_milestone_dispute. -/
theorem status_machine_amendment_minimal :
    (∀ (op : NOp) (s s' : EscrowStatus), nOpEdge op s s' = true →
       claimedStatusEdge s s' = true) ∧
    (∀ (op : TOp) (s s' : EscrowStatus), tOpEdge op s s' = true →
       claimedStatusEdge s s' = true) ∧
    (∀ (op : MOp) (s s' : EscrowStatus), mOpEdge op s s' = true →
       claimedStatusEdge s s' = true ∨ s = s' ∨
       (s = .Disputed ∧ s' = .Completed)) := by
  refine ⟨?_, ?_, ?_⟩
  · intro op s s' h
    cases op <;> cases s <;> cases s' <;> simp_all [nOpEdge, claimedStatusEdge]
  · intro op s s' h
    cases op <;> cases s <;> cases s' <;> simp_all [tOpEdge, claimedStatusEdge]
  · intro op s s' h
    cases op <;> cases s <;> cases s' <;> simp_all [mOpEdge, claimedStatusEdge]
